import Mathlib

/-!
# Verification of the photoshop-loom layout engine

Shallow embedding of the layout engine of the `photoshop-loom-script`
repository: the rule parser (`src/parser.ts`), the geometry primitives
(`src/measure.ts`), the layout calculator (`src/layout.ts`), the position
application pass (`apply.ts`, `applyPositions` / `applyContentSizes`) and the
out-of-flow extraction/restoration protocol (`src/autolayout.ts`).

All geometry is carried out over `ℚ` (the source uses JS numbers; every input
appearing in a theorem below is exactly representable, and all comparisons
against the 1e-3 epsilon are robust).  Host layers are modelled as records of
the fields the engine reads: `name`, `visible`, `kind` and `bounds`.
-/

namespace Loom

/-- The epsilon used by the source everywhere a delta is compared:
`Math.abs(delta) > 0.001`. -/
def eps : ℚ := 1 / 1000

/-! ## types.ts -/

/-- `Spacing` from `types.ts`: padding values. -/
structure Spacing where
  top : ℚ
  right : ℚ
  bottom : ℚ
  left : ℚ
  deriving Repr, DecidableEq

/-- `Bounds` from `types.ts`: a rectangle as left/top/right/bottom. -/
structure Bounds where
  left : ℚ
  top : ℚ
  right : ℚ
  bottom : ℚ
  deriving Repr, DecidableEq

/-- `LayoutConfig` from `types.ts`.  The TS type uses string-literal unions
for `direction` (`"horizontal" | "vertical" | null`), `items` and `justify`;
we keep them as strings (with `Option` for the nullable direction), exactly
as the source compares them with `===`. -/
structure LayoutConfig where
  direction : Option String
  gap : ℚ
  padding : Spacing
  items : String
  justify : String
  isContent : Bool
  resizeContent : Bool
  isRounded : Bool
  isFixed : Bool
  isRelative : Bool
  isBackdrop : Bool
  deriving Repr, DecidableEq

/-- `createDefaultConfig` from `types.ts`. -/
def createDefaultConfig : LayoutConfig :=
  { direction := none
    gap := 0
    padding := { top := 0, right := 0, bottom := 0, left := 0 }
    items := "start"
    justify := "start"
    isContent := false
    resizeContent := false
    isRounded := false
    isFixed := false
    isRelative := false
    isBackdrop := false }

/-! ## JS string / number primitives used by parser.ts

`parser.ts` relies on `String.prototype.split`, `String.prototype.indexOf`,
regular-expression search (`String.prototype.match`) and `parseInt(_, 10)`.
We model each of these faithfully on the character list of the string. -/

/-- Maximal leading run of decimal digits (the greedy `\d+` of a JS regex,
and the digit-consuming loop of `parseInt`). -/
def takeDigits : List Char → List Char × List Char
  | [] => ([], [])
  | c :: rest =>
    if c.isDigit then
      let p := takeDigits rest
      (c :: p.1, p.2)
    else ([], c :: rest)

/-- Numeric value of a digit string (what `parseInt` returns on an all-digit
string). -/
def digitsToNat (ds : List Char) : Nat :=
  ds.foldl (fun n c => n * 10 + (c.toNat - 48)) 0

/-- JS `String.prototype.split` with a one-character separator (the source
splits on `"."` and `","`): substrings between separator occurrences,
including empty ones. -/
def splitChar (sep : Char) : List Char → List (List Char)
  | [] => [[]]
  | c :: rest =>
    if c = sep then [] :: splitChar sep rest
    else
      match splitChar sep rest with
      | [] => [[c]]
      | g :: gs => (c :: g) :: gs

/-- JS `parseInt(s, 10)` followed by `|| 0` (the idiom the source uses):
skip leading whitespace, read an optional sign and then a maximal digit run;
no digits means `NaN`, which `|| 0` turns into `0`. -/
def jsParseIntOr0 (s : List Char) : ℚ :=
  go (s.dropWhile Char.isWhitespace)
where
  go : List Char → ℚ
    | [] => 0
    | c :: rest =>
      if c = '-' then
        let p := takeDigits rest
        if p.1 = [] then 0 else -(digitsToNat p.1 : ℚ)
      else if c = '+' then
        let p := takeDigits rest
        if p.1 = [] then 0 else (digitsToNat p.1 : ℚ)
      else
        let p := takeDigits (c :: rest)
        if p.1 = [] then 0 else (digitsToNat p.1 : ℚ)

/-- Attempt to match the regex `gap\((\d+)\)` at the start of the character
list, returning the captured number. -/
def matchGapAt : List Char → Option Nat
  | 'g' :: 'a' :: 'p' :: '(' :: rest =>
    let p := takeDigits rest
    if p.1 ≠ [] ∧ p.2.head? = some ')' then some (digitsToNat p.1) else none
  | _ => none

/-- Unanchored search for `gap\((\d+)\)` (JS `String.prototype.match` scans
left to right). -/
def searchGap : List Char → Option Nat
  | [] => none
  | c :: rest =>
    match matchGapAt (c :: rest) with
    | some n => some n
    | none => searchGap rest

/-- `parseGap` from `parser.ts`: `cls.match(/gap\((\d+)\)/)`; the captured
digits are `parseInt`ed, a failed match yields `0`. -/
def parseGap (cls : List Char) : ℚ :=
  match searchGap cls with
  | some n => (n : ℚ)
  | none => 0

/-- Attempt to match `padding\(([^)]+)\)` at the start of the character list,
returning the captured (maximal, non-empty) run of non-`)` characters. -/
def matchPaddingAt : List Char → Option (List Char)
  | 'p' :: 'a' :: 'd' :: 'd' :: 'i' :: 'n' :: 'g' :: '(' :: rest =>
    let body := rest.takeWhile (fun c => c ≠ ')')
    let tail := rest.dropWhile (fun c => c ≠ ')')
    if body ≠ [] ∧ tail.head? = some ')' then some body else none
  | _ => none

/-- Unanchored search for `padding\(([^)]+)\)`. -/
def searchPadding : List Char → Option (List Char)
  | [] => none
  | c :: rest =>
    match matchPaddingAt (c :: rest) with
    | some b => some b
    | none => searchPadding rest

/-- `parsePadding` from `parser.ts`: extract the argument list of
`padding(...)`, split it on commas and `parseInt` each value with `|| 0`;
argument counts other than 1, 2 and 4 yield all-zero padding. -/
def parsePadding (cls : List Char) : Spacing :=
  match searchPadding cls with
  | none => { top := 0, right := 0, bottom := 0, left := 0 }
  | some body =>
    let values := splitChar ',' body
    match values with
    | [a] =>
      let n := jsParseIntOr0 a
      { top := n, right := n, bottom := n, left := n }
    | [a, b] =>
      let v := jsParseIntOr0 a
      let h := jsParseIntOr0 b
      { top := v, right := h, bottom := v, left := h }
    | [a, b, c, d] =>
      { top := jsParseIntOr0 a
        right := jsParseIntOr0 b
        bottom := jsParseIntOr0 c
        left := jsParseIntOr0 d }
    | _ => { top := 0, right := 0, bottom := 0, left := 0 }

/-- Does `pat` occur as a prefix of `cs`? (helper for the JS `indexOf`
model). -/
def hasPrefixChars : List Char → List Char → Bool
  | [], _ => true
  | _ :: _, [] => false
  | p :: ps, c :: cs => p = c && hasPrefixChars ps cs

/-- JS `s.indexOf(pat) !== -1`: does `pat` occur anywhere in `s`? -/
def hasSubstrChars (pat : List Char) : List Char → Bool
  | [] => hasPrefixChars pat []
  | c :: cs => hasPrefixChars pat (c :: cs) || hasSubstrChars pat cs

/-- One step of the token dispatch inside `parseLayoutName`'s loop: the
`if/else if` chain over a single dot-separated segment. -/
def applyClass (config : LayoutConfig) (cls : List Char) : LayoutConfig :=
  if cls = [] then config
  else if cls = "hstack".data then { config with direction := some "horizontal" }
  else if cls = "vstack".data then { config with direction := some "vertical" }
  else if cls = "content".data then { config with isContent := true }
  else if cls = "resize".data then { config with resizeContent := true }
  else if cls = "rounded".data then { config with isRounded := true }
  else if cls = "fixed".data then { config with isFixed := true }
  else if cls = "relative".data then { config with isRelative := true }
  else if cls = "backdrop".data then { config with isBackdrop := true }
  else if cls = "items-start".data then { config with items := "start" }
  else if cls = "items-center".data then { config with items := "center" }
  else if cls = "items-end".data then { config with items := "end" }
  else if cls = "justify-start".data then { config with justify := "start" }
  else if cls = "justify-center".data then { config with justify := "center" }
  else if cls = "justify-end".data then { config with justify := "end" }
  else if cls = "justify-between".data then { config with justify := "between" }
  else if hasPrefixChars "gap(".data cls then { config with gap := parseGap cls }
  else if hasPrefixChars "padding(".data cls then
    { config with padding := parsePadding cls }
  else config

/-- `parseLayoutName` from `parser.ts`: names not starting with the `.`
marker (including the empty name) yield the default configuration; otherwise
the name is split on `.` and each segment feeds the token dispatch. -/
def parseLayoutName (name : String) : LayoutConfig :=
  match name.data with
  | [] => createDefaultConfig
  | c :: _ =>
    if c ≠ '.' then createDefaultConfig
    else (splitChar '.' name.data).foldl applyClass createDefaultConfig

/-- `isContentLayer` from `parser.ts`:
`!!name && name.indexOf(".content") !== -1`. -/
def isContentLayer (name : String) : Bool :=
  !name.data.isEmpty && hasSubstrChars ".content".data name.data

/-! ## measure.ts -/

/-- `getBoundsWidth` from `measure.ts`. -/
def getBoundsWidth (b : Bounds) : ℚ := b.right - b.left

/-- `getBoundsHeight` from `measure.ts`. -/
def getBoundsHeight (b : Bounds) : ℚ := b.bottom - b.top

/-- The loop body of `getUnionBounds`: widen the accumulated rectangle by one
more rectangle. -/
def unionStep (result b : Bounds) : Bounds :=
  { left := if b.left < result.left then b.left else result.left
    top := if b.top < result.top then b.top else result.top
    right := if b.right > result.right then b.right else result.right
    bottom := if b.bottom > result.bottom then b.bottom else result.bottom }

/-- `getUnionBounds` from `measure.ts`: the zero rectangle for an empty list,
otherwise the first rectangle widened by all the others. -/
def getUnionBounds : List Bounds → Bounds
  | [] => { left := 0, top := 0, right := 0, bottom := 0 }
  | b :: rest => rest.foldl unionStep b

/-- The adjustment-layer kind names of `measure.ts`
(`ADJUSTMENT_LAYER_KINDS`). -/
def adjustmentLayerKinds : List String :=
  ["BLACKANDWHITE", "BRIGHTNESSCONTRAST", "CHANNELMIXER", "COLORBALANCE",
   "COLORLOOKUP", "CURVES", "EXPOSURE", "GRADIENTFILL", "GRADIENTMAP",
   "HUESATURATION", "INVERSION", "LEVELS", "PATTERNFILL", "PHOTOFILTER",
   "POSTERIZE", "SELECTIVECOLOR", "SOLIDFILL", "THRESHOLD", "VIBRANCE",
   "VIDEO"]

/-! ## The host layer model

A host layer, restricted to the fields the engine reads: its name, its
visibility flag, its kind (a `LayerKind` name, `"NORMAL"` for ordinary
layers) and its rectangle.  A container (`LayerSet`) carries its own
rectangle (read by `calculateLayout` only on the no-flow-children fallback
path) and its direct children in visual order, which is the order
`getChildren` returns after its `itemIndex` sort. -/

structure Layer where
  name : String
  visible : Bool
  kind : String
  bounds : Bounds
  id : Nat := 0
  deriving Repr, DecidableEq

/-- `isAdjustmentLayer` from `measure.ts`: the layer kind is one of the
adjustment kinds. -/
def isAdjustmentLayer (l : Layer) : Bool :=
  adjustmentLayerKinds.contains l.kind

/-- `isLayerVisible` from `measure.ts`. -/
def isLayerVisible (l : Layer) : Bool := l.visible

/-- A container: the host `LayerSet` as the engine sees it. -/
structure LayerSet where
  bounds : Bounds
  children : List Layer
  deriving Repr, DecidableEq

/-- `ComputedPosition` from `types.ts`. -/
structure ComputedPosition where
  x : ℚ
  y : ℚ
  deriving Repr, DecidableEq

/-- A `{ width, height }` record as used throughout `layout.ts`
(`contentSize`, `availableSpace`, `containerSize`, `ComputedSize`). -/
structure SizeWH where
  width : ℚ
  height : ℚ
  deriving Repr, DecidableEq

/-- `LayoutChild` from `types.ts`. -/
structure LayoutChild where
  layer : Layer
  bounds : Bounds
  config : LayoutConfig
  computedPosition : Option ComputedPosition
  computedSize : Option SizeWH
  deriving Repr, DecidableEq

/-- `LayoutResult` from `layout.ts`. -/
structure LayoutResult where
  children : List LayoutChild
  contentSize : SizeWH
  containerSize : SizeWH
  deriving Repr, DecidableEq

/-! ## layout.ts -/

/-- Accumulation step of the `if (h > maxHeight) maxHeight = h` loops. -/
def maxStep (acc v : ℚ) : ℚ := if v > acc then v else acc

/-- Accumulation step of the `if (b.left < minX) minX = b.left` loops. -/
def minStep (acc v : ℚ) : ℚ := if v < acc then v else acc

/-- `calculateContentSize` from `layout.ts`: sum of main-axis sizes plus
gaps and maximum cross-axis size for `horizontal`/`vertical`; maximum width
and maximum height over the children for any other direction. -/
def calculateContentSize (bounds : List Bounds) (config : LayoutConfig) :
    SizeWH :=
  if bounds = [] then { width := 0, height := 0 }
  else if config.direction = some "horizontal" then
    { width := bounds.foldl (fun acc b => acc + getBoundsWidth b) 0 +
        config.gap * ((bounds.length - 1 : ℕ) : ℚ)
      height := bounds.foldl (fun acc b => maxStep acc (getBoundsHeight b)) 0 }
  else if config.direction = some "vertical" then
    { width := bounds.foldl (fun acc b => maxStep acc (getBoundsWidth b)) 0
      height := bounds.foldl (fun acc b => acc + getBoundsHeight b) 0 +
        config.gap * ((bounds.length - 1 : ℕ) : ℚ) }
  else
    { width := bounds.foldl (fun acc b => maxStep acc (getBoundsWidth b)) 0
      height := bounds.foldl (fun acc b => maxStep acc (getBoundsHeight b)) 0 }

/-- `calculateCrossAxisOffset` from `layout.ts`. -/
def calculateCrossAxisOffset (childSize containerSize : ℚ)
    (alignment : String) : ℚ :=
  if alignment = "center" then (containerSize - childSize) / 2
  else if alignment = "end" then containerSize - childSize
  else 0

/-- The per-child loop of `calculatePositions`, carrying the running
`currentX`/`currentY` accumulators. -/
def positionsLoop (config : LayoutConfig) (availableSpace : SizeWH)
    (startX startY dynamicGap : ℚ) :
    List Bounds → ℚ → ℚ → List ComputedPosition
  | [], _, _ => []
  | b :: rest, currentX, currentY =>
    let childWidth := getBoundsWidth b
    let childHeight := getBoundsHeight b
    if config.direction = some "horizontal" then
      let yOffset :=
        calculateCrossAxisOffset childHeight availableSpace.height config.items
      { x := currentX, y := startY + yOffset } ::
        positionsLoop config availableSpace startX startY dynamicGap rest
          (currentX + childWidth + dynamicGap) currentY
    else if config.direction = some "vertical" then
      let xOffset :=
        calculateCrossAxisOffset childWidth availableSpace.width config.items
      { x := startX + xOffset, y := currentY } ::
        positionsLoop config availableSpace startX startY dynamicGap rest
          currentX (currentY + childHeight + dynamicGap)
    else
      let xOff :=
        calculateCrossAxisOffset childWidth availableSpace.width config.items
      let yOff :=
        calculateCrossAxisOffset childHeight availableSpace.height config.items
      { x := startX + xOff, y := startY + yOff } ::
        positionsLoop config availableSpace startX startY dynamicGap rest
          currentX currentY

/-- `calculatePositions` from `layout.ts`.  The source iterates over
`layers`/`bounds` in lockstep (they always have equal length); only the
length of `layers` is read, so the model recurses over `bounds` and takes
the common length from it. -/
def calculatePositions (bounds : List Bounds) (config : LayoutConfig)
    (availableSpace : SizeWH) (startX startY : ℚ) : List ComputedPosition :=
  if bounds = [] then []
  else
    let n : ℕ := bounds.length
    let totalContentWidth :=
      bounds.foldl (fun acc b => acc + getBoundsWidth b) 0 +
        config.gap * ((n - 1 : ℕ) : ℚ)
    let totalContentHeight :=
      bounds.foldl (fun acc b => acc + getBoundsHeight b) 0 +
        config.gap * ((n - 1 : ℕ) : ℚ)
    let mainAxisOffset : ℚ :=
      if config.direction = some "horizontal" then
        if config.justify = "center" then
          (availableSpace.width - totalContentWidth) / 2
        else if config.justify = "end" then
          availableSpace.width - totalContentWidth
        else 0
      else if config.direction = some "vertical" then
        if config.justify = "center" then
          (availableSpace.height - totalContentHeight) / 2
        else if config.justify = "end" then
          availableSpace.height - totalContentHeight
        else 0
      else 0
    let dynamicGap : ℚ :=
      if config.direction = some "horizontal" then
        if config.justify = "between" ∧ 1 < n then
          let totalChildWidth :=
            bounds.foldl (fun acc b => acc + getBoundsWidth b) 0
          let remainingWidth := availableSpace.width - totalChildWidth
          if 0 < remainingWidth then remainingWidth / ((n - 1 : ℕ) : ℚ)
          else config.gap
        else config.gap
      else if config.direction = some "vertical" then
        if config.justify = "between" ∧ 1 < n then
          let totalChildHeight :=
            bounds.foldl (fun acc b => acc + getBoundsHeight b) 0
          let remainingHeight := availableSpace.height - totalChildHeight
          if 0 < remainingHeight then remainingHeight / ((n - 1 : ℕ) : ℚ)
          else config.gap
        else config.gap
      else config.gap
    let currentX :=
      startX + (if config.direction = some "horizontal" then mainAxisOffset else 0)
    let currentY :=
      startY + (if config.direction = some "vertical" then mainAxisOffset else 0)
    positionsLoop config availableSpace startX startY dynamicGap bounds
      currentX currentY

/-- Visible non-content children: the `normalLayers` of `calculateLayout`. -/
def visibleNormal (c : Layer) : Bool :=
  isLayerVisible c && !(isContentLayer c.name)

/-- Visible content children: the `contentLayers` of `calculateLayout`. -/
def visibleContent (c : Layer) : Bool :=
  isLayerVisible c && isContentLayer c.name

/-- The `minX` loop of `calculateLayout`: minimum `left` over a non-empty
bounds list, seeded with the first element. -/
def minLeftOf : List Bounds → ℚ
  | [] => 0
  | b :: rest => rest.foldl (fun acc c => minStep acc c.left) b.left

/-- The `minY` loop of `calculateLayout`. -/
def minTopOf : List Bounds → ℚ
  | [] => 0
  | b :: rest => rest.foldl (fun acc c => minStep acc c.top) b.top

/-- All intermediate values computed by `calculateLayout`, bundled so the
application pass (`apply.ts`) can reuse exactly the values the calculator
produced. -/
structure LayoutParts where
  normalLayers : List Layer
  contentLayers : List Layer
  normalBounds : List Bounds
  contentSize : SizeWH
  availableSpace : SizeWH
  containerSize : SizeWH
  useFixedSize : Bool
  contentStartX : ℚ
  contentStartY : ℚ
  positions : List ComputedPosition
  deriving Repr, DecidableEq

/-- The body of `calculateLayout` from `layout.ts`, producing every
intermediate value in source order. -/
def layoutParts (layerSet : LayerSet) (config : LayoutConfig) : LayoutParts :=
  let normalLayers := layerSet.children.filter visibleNormal
  let contentLayers := layerSet.children.filter visibleContent
  let normalBounds := normalLayers.map Layer.bounds
  let contentSize := calculateContentSize normalBounds config
  let groupBounds := layerSet.bounds
  let hasContentLayer : Bool := !contentLayers.isEmpty
  let contentShouldResize : Bool :=
    match contentLayers.head? with
    | some c => (parseLayoutName c.name).resizeContent
    | none => false
  let useFixedSize : Bool := hasContentLayer && !contentShouldResize
  let contentLayerBounds :=
    match contentLayers.head? with
    | some c => c.bounds
    | none => groupBounds
  let availableSpace : SizeWH :=
    if useFixedSize then
      { width := getBoundsWidth contentLayerBounds -
          config.padding.left - config.padding.right
        height := getBoundsHeight contentLayerBounds -
          config.padding.top - config.padding.bottom }
    else contentSize
  let containerSize : SizeWH :=
    if useFixedSize then
      { width := getBoundsWidth contentLayerBounds
        height := getBoundsHeight contentLayerBounds }
    else
      { width := contentSize.width + config.padding.left + config.padding.right
        height := contentSize.height + config.padding.top + config.padding.bottom }
  let contentStartX :=
    if !normalBounds.isEmpty && !useFixedSize then minLeftOf normalBounds
    else if useFixedSize then contentLayerBounds.left + config.padding.left
    else groupBounds.left
  let contentStartY :=
    if !normalBounds.isEmpty && !useFixedSize then minTopOf normalBounds
    else if useFixedSize then contentLayerBounds.top + config.padding.top
    else groupBounds.top
  let positions :=
    calculatePositions normalBounds config availableSpace
      contentStartX contentStartY
  { normalLayers := normalLayers
    contentLayers := contentLayers
    normalBounds := normalBounds
    contentSize := contentSize
    availableSpace := availableSpace
    containerSize := containerSize
    useFixedSize := useFixedSize
    contentStartX := contentStartX
    contentStartY := contentStartY
    positions := positions }

/-- `calculateLayout` from `layout.ts`: the flow children paired with their
computed positions, followed by the content children, every one of which
receives the same computed rectangle. -/
def calculateLayout (layerSet : LayerSet) (config : LayoutConfig) :
    LayoutResult :=
  let p := layoutParts layerSet config
  { children :=
      (List.zipWith
        (fun l pos =>
          { layer := l
            bounds := l.bounds
            config := parseLayoutName l.name
            computedPosition := some pos
            computedSize := none : LayoutChild })
        p.normalLayers p.positions) ++
      p.contentLayers.map (fun c =>
        { layer := c
          bounds := c.bounds
          config := parseLayoutName c.name
          computedPosition := some
            { x := p.contentStartX - config.padding.left
              y := p.contentStartY - config.padding.top }
          computedSize := some p.containerSize })
    contentSize := p.contentSize
    containerSize := p.containerSize }

/-! ## apply.ts (src/unnamed/part_003) and processLayoutGroup

`applyPositions` translates a layer by `target − recorded top-left` when
either component of the delta exceeds the 1e-3 epsilon; `applyContentSizes`
resizes a content layer to its computed size anchored at its top-left,
skipping degenerate current sizes.  Both skip adjustment layers.  A host
`translate` moves the whole rectangle; a top-left-anchored `resize` keeps the
top-left corner and replaces width and height. -/

/-- Host `layer.translate(dx, dy)`. -/
def translateBounds (b : Bounds) (dx dy : ℚ) : Bounds :=
  { left := b.left + dx, top := b.top + dy
    right := b.right + dx, bottom := b.bottom + dy }

/-- `resizeLayerTo` from `apply.ts`: scale to the target size anchored at
the top-left corner; a current width or height below 1e-3 makes it return
without resizing. -/
def resizeLayerTo (b : Bounds) (target : SizeWH) : Bounds :=
  if getBoundsWidth b < eps ∨ getBoundsHeight b < eps then b
  else
    { left := b.left, top := b.top
      right := b.left + target.width, bottom := b.top + target.height }

/-- The mutation `applyPositions` performs on one layer: translate by the
delta to the target when it exceeds epsilon in either coordinate.  `recorded`
is the `child.bounds` rectangle captured by `calculateLayout` before any
mutation (its top-left equals the current top-left, because the only earlier
mutation, the content resize, is top-left anchored). -/
def moveWithEpsilon (b : Bounds) (target : ComputedPosition) : Bounds :=
  let deltaX := target.x - b.left
  let deltaY := target.y - b.top
  if eps < |deltaX| ∨ eps < |deltaY| then translateBounds b deltaX deltaY
  else b

/-- The same mutation without the epsilon suppression: the layer lands
exactly on its computed target.  Used to express the amended idempotence
statement (a first pass whose deltas were all applied exactly). -/
def moveExact (b : Bounds) (target : ComputedPosition) : Bounds :=
  translateBounds b (target.x - b.left) (target.y - b.top)

/-- One container application pass: walk the children in order;
invisible children are untouched (they are in no `LayoutChild`), content
children are resized to the container size — but only when their parsed
configuration carries the `isContent` flag, the extra guard of
`applyContentSizes` (`!child.computedSize || !child.config.isContent`) — and
then moved to the content target; flow children consume the next computed
position.  Adjustment layers are skipped by both `applyContentSizes` and
`applyPositions`.  The walk is parameterised by the move primitive
(`moveWithEpsilon` for the source pass, `moveExact` for the suppression-free
variant). -/
def applyWalk (mv : Bounds → ComputedPosition → Bounds)
    (contentTarget : ComputedPosition) (contentResize : SizeWH) :
    List Layer → List ComputedPosition → List Layer
  | [], _ => []
  | c :: rest, ps =>
    if ¬ isLayerVisible c then
      c :: applyWalk mv contentTarget contentResize rest ps
    else if isContentLayer c.name then
      let b1 := if isAdjustmentLayer c then c.bounds
        else if (parseLayoutName c.name).isContent then
          resizeLayerTo c.bounds contentResize
        else c.bounds
      let b2 := if isAdjustmentLayer c then b1 else mv b1 contentTarget
      { c with bounds := b2 } ::
        applyWalk mv contentTarget contentResize rest ps
    else
      match ps with
      | [] => c :: applyWalk mv contentTarget contentResize rest []
      | p :: ptail =>
        let b2 := if isAdjustmentLayer c then c.bounds else mv c.bounds p
        { c with bounds := b2 } ::
          applyWalk mv contentTarget contentResize rest ptail

/-- `processLayoutGroup` from `autolayout.ts` restricted to its geometric
effect on one container: skip when the configuration has no direction and
all-zero padding, skip when the layout result has no children, otherwise
apply content sizes and computed positions.  `layerSet.bounds` models the
`getLayerBounds(layerSet)` the host reports at the start of this pass (the
host derives a group rectangle from its children, so a later pass runs on a
fresh record whose `bounds` field carries that later, re-derived value —
the idempotence theorem below quantifies over it). -/
def applyLayoutWith (mv : Bounds → ComputedPosition → Bounds)
    (layerSet : LayerSet) (config : LayoutConfig) : LayerSet :=
  if config.direction = none ∧ config.padding.top = 0 ∧
      config.padding.right = 0 ∧ config.padding.bottom = 0 ∧
      config.padding.left = 0 then layerSet
  else if (layoutParts layerSet config).normalLayers = [] ∧
      (layoutParts layerSet config).contentLayers = [] then layerSet
  else
    { layerSet with
        children :=
          applyWalk mv
            { x := (layoutParts layerSet config).contentStartX -
                config.padding.left
              y := (layoutParts layerSet config).contentStartY -
                config.padding.top }
            (layoutParts layerSet config).containerSize layerSet.children
            (layoutParts layerSet config).positions }

/-- The source pass over one container: `calculateLayout` followed by
`applyContentSizes` and `applyPositions` (with epsilon suppression). -/
def applyLayoutPass (layerSet : LayerSet) (config : LayoutConfig) : LayerSet :=
  applyLayoutWith moveWithEpsilon layerSet config

/-- The suppression-free variant: every delta is applied exactly. -/
def applyLayoutExact (layerSet : LayerSet) (config : LayoutConfig) : LayerSet :=
  applyLayoutWith moveExact layerSet config

/-! ## autolayout.ts — out-of-flow extraction / restoration

One-container model of `processDocument`'s extraction phases.  The `id`
field of `Layer` stands for JS object identity: the recorded
`siblingAfter` reference is resolved by id, because the referenced sibling
may have been translated (mutated) between extraction and restoration.
Children are modelled as leaf layers (`isLayerGroup` false), so the
inner-group adjustment pre-extraction of `extractSpecialLayers` does not
fire.  The layout phase between extraction and restoration is abstracted as
the uniform translation the container receives when an enclosing layout
moves it. -/

/-- `ExtractedLayerInfo` from `autolayout.ts` (the original parent is the
single modelled container, so it is not carried). -/
structure ExtractedLayerInfo where
  layer : Layer
  siblingAfter : Option Layer
  absoluteX : ℚ
  absoluteY : ℚ
  isRelative : Bool
  isBackdrop : Bool
  isAdjustment : Bool
  extractionOrder : Nat
  deriving Repr, DecidableEq

/-- Should this child be pulled out of its container?
(`shouldExtract` inside `extractSpecialLayers`.) -/
def shouldExtract (c : Layer) : Bool :=
  let cfg := parseLayoutName c.name
  isAdjustmentLayer c ||
    ((cfg.isFixed || cfg.isRelative || cfg.isBackdrop) && isLayerVisible c)

/-- The sibling search of `extractSpecialLayers`: the first following child
that is neither an adjustment layer nor named fixed/relative/backdrop.
(Note: the source does not consult visibility here, although an invisible
flagged child is *not* extracted.) -/
def findSiblingAfter (rest : List Layer) : Option Layer :=
  rest.find? (fun n =>
    !isAdjustmentLayer n && !(parseLayoutName n.name).isFixed &&
      !(parseLayoutName n.name).isRelative &&
      !(parseLayoutName n.name).isBackdrop)

/-- The record-building loop of `extractSpecialLayers`, threading the
strictly increasing global sequence counter. -/
def extractRecords : List Layer → Nat → List ExtractedLayerInfo
  | [], _ => []
  | c :: rest, order =>
    if shouldExtract c then
      { layer := c
        siblingAfter := findSiblingAfter rest
        absoluteX := c.bounds.left
        absoluteY := c.bounds.top
        isRelative := (parseLayoutName c.name).isRelative
        isBackdrop := (parseLayoutName c.name).isBackdrop
        isAdjustment := isAdjustmentLayer c
        extractionOrder := order } :: extractRecords rest (order + 1)
    else extractRecords rest order

/-- Insert `l` immediately before the child whose id is `sid`
(`layer.move(sibling, ElementPlacement.PLACEBEFORE)`). -/
def insertBeforeId (sid : Nat) (l : Layer) : List Layer → List Layer
  | [] => [l]
  | c :: rest =>
    if c.id = sid then l :: c :: rest else c :: insertBeforeId sid l rest

/-- The corrective translation of `restoreLayersToGroup` for fixed-category
layers: translate to the recorded absolute position unless the delta is
within epsilon in both coordinates. -/
def correctiveMove (info : ExtractedLayerInfo) (cur : Layer) : Layer :=
  let deltaX := info.absoluteX - cur.bounds.left
  let deltaY := info.absoluteY - cur.bounds.top
  if eps < |deltaX| ∨ eps < |deltaY| then
    { cur with bounds := translateBounds cur.bounds deltaX deltaY }
  else cur

/-- Restore one extracted layer (`restoreLayersToGroup` loop body): place it
before the recorded sibling, or at the end of the container when no
non-extracted sibling followed it (the two `PLACEBEFORE` moves of the source
net to an append); fixed-category layers then receive the corrective
translation. -/
def restoreOne (cont : List Layer) (info : ExtractedLayerInfo) (cur : Layer) :
    List Layer :=
  let cur2 :=
    if !info.isRelative && !info.isBackdrop && !info.isAdjustment then
      correctiveMove info cur
    else cur
  match info.siblingAfter with
  | some s => insertBeforeId s.id cur2 cont
  | none =>
    match cont with
    | [] => [cur2]
    | _ => cont ++ [cur2]

/-- Insertion (stable) into a list sorted by ascending extraction order:
one step of the PHASE-4 sort of `processDocument`. -/
def insertByOrder (r : ExtractedLayerInfo) :
    List ExtractedLayerInfo → List ExtractedLayerInfo
  | [] => [r]
  | x :: xs =>
    if r.extractionOrder < x.extractionOrder then r :: x :: xs
    else x :: insertByOrder r xs

/-- The PHASE-4 sort: ascending extraction order. -/
def sortByOrder : List ExtractedLayerInfo → List ExtractedLayerInfo
  | [] => []
  | x :: xs => insertByOrder x (sortByOrder xs)

/-- One-container pass of `processDocument`'s extraction protocol:
extract the special children (PHASE 1), put relative ones back (PHASE 2),
translate the container — standing for the layout translation its parent
applies to it (PHASE 3) — then restore the non-relative records in ascending
extraction order (PHASE 4).  `driftF` gives the translation a non-relative
extracted layer accumulated while parked at document root (zero in an
undisturbed host; the fixed-layer contract must hold regardless of it). -/
def processContainerModel (children : List Layer) (dx dy : ℚ)
    (driftF : Nat → ℚ × ℚ) : List Layer :=
  let records := extractRecords children 0
  let remaining := children.filter (fun c => !shouldExtract c)
  let relatives := records.filter (fun r => r.isRelative)
  let container2 :=
    relatives.foldl (fun cont r => restoreOne cont r r.layer) remaining
  let container3 := container2.map (fun c =>
    { c with bounds := translateBounds c.bounds dx dy })
  let nonRelative := records.filter (fun r => !r.isRelative)
  let sorted := sortByOrder nonRelative
  sorted.foldl
    (fun cont r =>
      let d := driftF r.extractionOrder
      let cur := { r.layer with bounds := translateBounds r.layer.bounds d.1 d.2 }
      restoreOne cont r cur)
    container3

/-! ## Specification-side notions -/

/-- `outer` contains `inner` (the spec's notion for the union being the
least rectangle containing every input). -/
def boundsContains (outer inner : Bounds) : Prop :=
  outer.left ≤ inner.left ∧ outer.top ≤ inner.top ∧
    inner.right ≤ outer.right ∧ inner.bottom ≤ outer.bottom

instance (outer inner : Bounds) : Decidable (boundsContains outer inner) := by
  unfold boundsContains
  infer_instance

/-- The width/height pair of a rectangle: layout positions depend on child
rectangles only through this projection. -/
def boundsSize (b : Bounds) : ℚ × ℚ :=
  (getBoundsWidth b, getBoundsHeight b)

/-! ## Concrete scenario inputs for the testable properties -/

/-- C2: a row container in auto-size mode, three visible flow children of
widths 10, 20 and 30 at arbitrary positions and heights. -/
def c2Container (x1 y1 h1 x2 y2 h2 x3 y3 h3 : ℚ) : LayerSet :=
  { bounds := { left := 0, top := 0, right := 0, bottom := 0 }
    children :=
      [{ name := "a", visible := true, kind := "NORMAL"
         bounds := { left := x1, top := y1, right := x1 + 10, bottom := y1 + h1 } },
       { name := "b", visible := true, kind := "NORMAL"
         bounds := { left := x2, top := y2, right := x2 + 20, bottom := y2 + h2 } },
       { name := "c", visible := true, kind := "NORMAL"
         bounds := { left := x3, top := y3, right := x3 + 30, bottom := y3 + h3 } }] }

/-- C2: row direction, gap 5, start/start alignment
(`.hstack.gap(5)`). -/
def c2Config : LayoutConfig :=
  { createDefaultConfig with direction := some "horizontal", gap := 5 }

/-- C4: a fixed-size row container: a `.content` child of width `w` and
height `hc` at `(cx, cy)`, and three flow children of widths `w1 w2 w3`. -/
def c4Container (cx cy w hc x1 y1 w1 h1 x2 y2 w2 h2 x3 y3 w3 h3 : ℚ) :
    LayerSet :=
  { bounds := { left := 0, top := 0, right := 0, bottom := 0 }
    children :=
      [{ name := ".content", visible := true, kind := "NORMAL"
         bounds := { left := cx, top := cy, right := cx + w, bottom := cy + hc } },
       { name := "a", visible := true, kind := "NORMAL"
         bounds := { left := x1, top := y1, right := x1 + w1, bottom := y1 + h1 } },
       { name := "b", visible := true, kind := "NORMAL"
         bounds := { left := x2, top := y2, right := x2 + w2, bottom := y2 + h2 } },
       { name := "c", visible := true, kind := "NORMAL"
         bounds := { left := x3, top := y3, right := x3 + w3, bottom := y3 + h3 } }] }

/-- C4: row direction, justify `between`, static gap `g`, zero padding. -/
def c4Config (g : ℚ) : LayoutConfig :=
  { createDefaultConfig with
      direction := some "horizontal"
      gap := g
      justify := "between" }

/-- C5: a fixed-size container whose `.content` child is 100×50 at
`(cl, ct)`, one 20×20 flow child at `(x0, y0)`. -/
def c5Container (cl ct x0 y0 : ℚ) : LayerSet :=
  { bounds := { left := 0, top := 0, right := 0, bottom := 0 }
    children :=
      [{ name := ".content", visible := true, kind := "NORMAL"
         bounds := { left := cl, top := ct, right := cl + 100, bottom := ct + 50 } },
       { name := "child", visible := true, kind := "NORMAL"
         bounds := { left := x0, top := y0, right := x0 + 20, bottom := y0 + 20 } }] }

/-- C5: row direction, padding (top 8, right 16, bottom 8, left 16),
items-center, justify-center (`.hstack.padding(8,16).items-center.justify-center`). -/
def c5Config : LayoutConfig :=
  { createDefaultConfig with
      direction := some "horizontal"
      padding := { top := 8, right := 16, bottom := 8, left := 16 }
      items := "center"
      justify := "center" }

/-- C3: two rectangles of equal size at different positions — their
bounding union is wider than either of them. -/
def c3BoundsList : List Bounds :=
  [{ left := 0, top := 0, right := 10, bottom := 10 },
   { left := 100, top := 0, right := 110, bottom := 10 }]

/-- C1: a row container whose children already sit within epsilon of a
laid-out state: child `a` is 0.0008 right of the anchor, child `c` is
0.0008 left of its target. -/
def c1Container : LayerSet :=
  { bounds := { left := 0, top := 0, right := 0, bottom := 0 }
    children :=
      [{ name := "a", visible := true, kind := "NORMAL"
         bounds := { left := 1/1250, top := 0, right := 1/1250 + 10, bottom := 10 } },
       { name := "b", visible := true, kind := "NORMAL"
         bounds := { left := 0, top := 0, right := 10, bottom := 10 } },
       { name := "c", visible := true, kind := "NORMAL"
         bounds := { left := 19 + 9992/10000, top := 0
                     right := 29 + 9992/10000, bottom := 10 } }] }

/-- C1: plain row container, gap 0 (`.hstack`). -/
def c1Config : LayoutConfig :=
  { createDefaultConfig with direction := some "horizontal" }

/-- C1: child `a` with its sub-epsilon offset denominator cleared. -/
def c1A : Layer :=
  { name := "a", visible := true, kind := "NORMAL"
    bounds := { left := 1/1250, top := 0, right := 12501/1250, bottom := 10 } }

/-- C1: child `b` at the anchor. -/
def c1B : Layer :=
  { name := "b", visible := true, kind := "NORMAL"
    bounds := { left := 0, top := 0, right := 10, bottom := 10 } }

/-- C1: child `b` after the first pass moved it to its target. -/
def c1BMoved : Layer :=
  { name := "b", visible := true, kind := "NORMAL"
    bounds := { left := 10, top := 0, right := 20, bottom := 10 } }

/-- C1: child `c`, 0.0008 left of its target. -/
def c1C : Layer :=
  { name := "c", visible := true, kind := "NORMAL"
    bounds := { left := 24999/1250, top := 0, right := 37499/1250, bottom := 10 } }

/-- C1: child `c` after the second pass moved it by 0.0016. -/
def c1CMoved : Layer :=
  { name := "c", visible := true, kind := "NORMAL"
    bounds := { left := 25001/1250, top := 0, right := 37501/1250, bottom := 10 } }

/-- C1: the container after one pass. -/
def c1OnceSet : LayerSet := { c1Container with children := [c1A, c1BMoved, c1C] }

/-- C1: the container after two passes — child `c` has drifted. -/
def c1TwiceSet : LayerSet :=
  { c1Container with children := [c1A, c1BMoved, c1CMoved] }

/-- C6: a fixed-flagged child at canvas position (200, 20). -/
def c6Fixed : Layer :=
  { name := ".logo.fixed", visible := true, kind := "NORMAL"
    bounds := { left := 200, top := 20, right := 240, bottom := 60 }, id := 0 }

/-- C6: an ordinary flow sibling. -/
def c6Body : Layer :=
  { name := "body", visible := true, kind := "NORMAL"
    bounds := { left := 100, top := 40, right := 150, bottom := 90 }, id := 1 }

/-- C7 example: A, a visible fixed child. -/
def c7ExA : Layer :=
  { name := ".a.fixed", visible := true, kind := "NORMAL"
    bounds := { left := 0, top := 0, right := 10, bottom := 10 }, id := 10 }

/-- C7 example: B, an ordinary child. -/
def c7ExB : Layer :=
  { name := "b", visible := true, kind := "NORMAL"
    bounds := { left := 0, top := 10, right := 10, bottom := 20 }, id := 11 }

/-- C7 example: C, a visible backdrop child. -/
def c7ExC : Layer :=
  { name := ".c.backdrop", visible := true, kind := "NORMAL"
    bounds := { left := 0, top := 20, right := 10, bottom := 30 }, id := 12 }

/-- C7 example: D, an ordinary child. -/
def c7ExD : Layer :=
  { name := "d", visible := true, kind := "NORMAL"
    bounds := { left := 0, top := 30, right := 10, bottom := 40 }, id := 13 }

/-- C7: pre-pass order [A(fixed), B, C(backdrop), D] of the claim's
example. -/
def c7Example : List Layer := [c7ExA, c7ExB, c7ExC, c7ExD]

/-- C7 failing input: a visible fixed child. -/
def c7FA : Layer :=
  { name := ".a.fixed", visible := true, kind := "NORMAL"
    bounds := { left := 0, top := 0, right := 10, bottom := 10 }, id := 20 }

/-- C7 failing input: an *invisible* fixed-named sibling (skipped by the
sibling search although it is not extracted). -/
def c7FB : Layer :=
  { name := ".b.fixed", visible := false, kind := "NORMAL"
    bounds := { left := 0, top := 10, right := 10, bottom := 20 }, id := 21 }

/-- C7 failing input: an ordinary child. -/
def c7FD : Layer :=
  { name := "d", visible := true, kind := "NORMAL"
    bounds := { left := 0, top := 30, right := 10, bottom := 40 }, id := 22 }

/-- C7: the failing input order [A(fixed), B(fixed, invisible), D]. -/
def c7Failing : List Layer := [c7FA, c7FB, c7FD]

/-! # Theorems

General lemmas about the folds the source uses for running minima and
maxima, then one theorem (plus witness / counterexample where required) per
claim. -/

theorem minStep_le_left (a v : ℚ) : minStep a v ≤ a := by
  unfold minStep
  split <;> linarith

theorem minStep_le_right (a v : ℚ) : minStep a v ≤ v := by
  unfold minStep
  split <;> linarith

theorem le_minStep (a v c : ℚ) (h1 : c ≤ a) (h2 : c ≤ v) : c ≤ minStep a v := by
  unfold minStep
  split <;> linarith

theorem le_maxStep_left (a v : ℚ) : a ≤ maxStep a v := by
  unfold maxStep
  split <;> linarith

theorem le_maxStep_right (a v : ℚ) : v ≤ maxStep a v := by
  unfold maxStep
  split <;> linarith

theorem foldl_minStep_le_init (l : List ℚ) :
    ∀ acc : ℚ, l.foldl minStep acc ≤ acc := by
  induction l with
  | nil => intro acc; simp
  | cons x xs ih =>
    intro acc
    calc xs.foldl minStep (minStep acc x) ≤ minStep acc x := ih _
    _ ≤ acc := minStep_le_left _ _

theorem foldl_minStep_le_mem (l : List ℚ) :
    ∀ acc : ℚ, ∀ v ∈ l, l.foldl minStep acc ≤ v := by
  induction l with
  | nil => intro acc v hv; simp at hv
  | cons x xs ih =>
    intro acc v hv
    rcases List.mem_cons.mp hv with h | h
    · subst h
      calc xs.foldl minStep (minStep acc v) ≤ minStep acc v :=
        foldl_minStep_le_init _ _
      _ ≤ v := minStep_le_right _ _
    · exact ih _ v h

theorem foldl_minStep_cases (l : List ℚ) :
    ∀ acc : ℚ, l.foldl minStep acc = acc ∨ ∃ v ∈ l, l.foldl minStep acc = v := by
  induction l with
  | nil => intro acc; left; rfl
  | cons x xs ih =>
    intro acc
    have hred : (x :: xs).foldl minStep acc = xs.foldl minStep (minStep acc x) :=
      rfl
    rcases ih (minStep acc x) with h | ⟨v, hv, he⟩
    · by_cases hc : x < acc
      · right
        refine ⟨x, List.mem_cons_self _ _, ?_⟩
        rw [hred, h]
        simp [minStep, hc]
      · left
        rw [hred, h]
        simp [minStep, hc]
    · right
      exact ⟨v, List.mem_cons_of_mem _ hv, hred ▸ he⟩

theorem foldl_minStep_eq (l : List ℚ) (acc a : ℚ) (hacc : a ≤ acc)
    (hall : ∀ v ∈ l, a ≤ v) (hatt : acc = a ∨ ∃ v ∈ l, v = a) :
    l.foldl minStep acc = a := by
  have hle : l.foldl minStep acc ≤ a := by
    rcases hatt with h | ⟨v, hv, he⟩
    · have := foldl_minStep_le_init l acc
      linarith
    · have := foldl_minStep_le_mem l acc v hv
      linarith
  have hge : a ≤ l.foldl minStep acc := by
    rcases foldl_minStep_cases l acc with h | ⟨v, hv, he⟩
    · rw [h]
      exact hacc
    · rw [he]
      exact hall v hv
  linarith

theorem foldl_maxStep_ge_init (l : List ℚ) :
    ∀ acc : ℚ, acc ≤ l.foldl maxStep acc := by
  induction l with
  | nil => intro acc; simp
  | cons x xs ih =>
    intro acc
    calc acc ≤ maxStep acc x := le_maxStep_left _ _
    _ ≤ xs.foldl maxStep (maxStep acc x) := ih _

theorem foldl_maxStep_ge_mem (l : List ℚ) :
    ∀ acc : ℚ, ∀ v ∈ l, v ≤ l.foldl maxStep acc := by
  induction l with
  | nil => intro acc v hv; simp at hv
  | cons x xs ih =>
    intro acc v hv
    rcases List.mem_cons.mp hv with h | h
    · subst h
      calc v ≤ maxStep acc v := le_maxStep_right _ _
      _ ≤ xs.foldl maxStep (maxStep acc v) := foldl_maxStep_ge_init _ _
    · exact ih _ v h

theorem foldl_maxStep_cases (l : List ℚ) :
    ∀ acc : ℚ, l.foldl maxStep acc = acc ∨ ∃ v ∈ l, l.foldl maxStep acc = v := by
  induction l with
  | nil => intro acc; left; rfl
  | cons x xs ih =>
    intro acc
    have hred : (x :: xs).foldl maxStep acc = xs.foldl maxStep (maxStep acc x) :=
      rfl
    rcases ih (maxStep acc x) with h | ⟨v, hv, he⟩
    · by_cases hc : x > acc
      · right
        refine ⟨x, List.mem_cons_self _ _, ?_⟩
        rw [hred, h]
        simp [maxStep, hc]
      · left
        rw [hred, h]
        simp [maxStep, hc]
    · right
      exact ⟨v, List.mem_cons_of_mem _ hv, hred ▸ he⟩

theorem applyWalk_all_normal (mv : Bounds → ComputedPosition → Bounds)
    (T : ComputedPosition) (CS : SizeWH) :
    ∀ (children : List Layer) (ps : List ComputedPosition),
      (∀ c ∈ children, visibleNormal c = true ∧ isAdjustmentLayer c = false) →
      children.length = ps.length →
      applyWalk mv T CS children ps =
        List.zipWith (fun c p => { c with bounds := mv c.bounds p }) children ps := by
  intro children
  induction children with
  | nil => intro ps h hl; simp [applyWalk]
  | cons c rest ih =>
    intro ps h hl
    rcases h c (List.mem_cons_self _ _) with ⟨hvn, hadj⟩
    have hv : isLayerVisible c = true := by
      simp [visibleNormal] at hvn
      exact hvn.1
    have hnc : isContentLayer c.name = false := by
      simp [visibleNormal] at hvn
      exact hvn.2
    cases ps with
    | nil => simp at hl
    | cons p pt =>
      simp only [applyWalk, hv, hnc, hadj, List.zipWith]
      simp only [Bool.not_true, if_false, Bool.false_eq_true, if_neg]
      rw [ih pt (fun x hx => h x (List.mem_cons_of_mem _ hx)) (by simpa using hl)]
      simp

set_option maxHeartbeats 1000000 in
theorem c1_parts : layoutParts c1Container c1Config =
    { normalLayers := [c1A, c1B, c1C]
      contentLayers := []
      normalBounds := [c1A.bounds, c1B.bounds, c1C.bounds]
      contentSize := { width := 30, height := 10 }
      availableSpace := { width := 30, height := 10 }
      containerSize := { width := 30, height := 10 }
      useFixedSize := false
      contentStartX := 0
      contentStartY := 0
      positions := [{ x := 0, y := 0 }, { x := 10, y := 0 }, { x := 20, y := 0 }] } := by
  have h1 : c1Container.children.filter visibleNormal = [c1A, c1B, c1C] := by
    norm_num [c1Container, c1A, c1B, c1C, visibleNormal, isLayerVisible,
      isContentLayer, hasSubstrChars, hasPrefixChars]
  have h2 : c1Container.children.filter visibleContent = [] := by
    norm_num [c1Container, visibleContent, isLayerVisible,
      isContentLayer, hasSubstrChars, hasPrefixChars]
  unfold layoutParts
  rw [h1, h2]
  simp only [c1Config, c1A, c1B, c1C, calculateContentSize, calculatePositions,
    positionsLoop, calculateCrossAxisOffset, minLeftOf, minTopOf,
    getBoundsWidth, getBoundsHeight, createDefaultConfig, List.map,
    List.foldl, List.length, String.reduceEq, reduceCtorEq, if_false, if_true,
    reduceIte, Nat.reduceSub, Nat.cast_ofNat, LayoutParts.mk.injEq]
  norm_num [minStep, maxStep]

set_option maxHeartbeats 1000000 in
theorem c1_once : applyLayoutPass c1Container c1Config = c1OnceSet := by
  unfold applyLayoutPass applyLayoutWith
  rw [c1_parts]
  rw [if_neg (by simp [c1Config]), if_neg (by simp)]
  rw [show c1Container.children = [c1A, c1B, c1C] by
    norm_num [c1Container, c1A, c1B, c1C]]
  rw [applyWalk_all_normal _ _ _ _ _ (by decide) (by decide)]
  simp only [List.zipWith]
  norm_num [c1OnceSet, c1Container, moveWithEpsilon, translateBounds, eps,
    c1Config, createDefaultConfig, c1A, c1B, c1C, c1BMoved,
    abs_of_nonneg, abs_of_nonpos]

set_option maxHeartbeats 1000000 in
theorem c1_parts2 : layoutParts c1OnceSet c1Config =
    { normalLayers := [c1A, c1BMoved, c1C]
      contentLayers := []
      normalBounds := [c1A.bounds, c1BMoved.bounds, c1C.bounds]
      contentSize := { width := 30, height := 10 }
      availableSpace := { width := 30, height := 10 }
      containerSize := { width := 30, height := 10 }
      useFixedSize := false
      contentStartX := 1/1250
      contentStartY := 0
      positions := [{ x := 1/1250, y := 0 }, { x := 12501/1250, y := 0 },
        { x := 25001/1250, y := 0 }] } := by
  have h1 : c1OnceSet.children.filter visibleNormal = [c1A, c1BMoved, c1C] := by
    norm_num [c1OnceSet, c1Container, c1A, c1BMoved, c1C, visibleNormal,
      isLayerVisible, isContentLayer, hasSubstrChars, hasPrefixChars]
  have h2 : c1OnceSet.children.filter visibleContent = [] := by
    norm_num [c1OnceSet, c1Container, visibleContent, isLayerVisible,
      isContentLayer, hasSubstrChars, hasPrefixChars]
  unfold layoutParts
  rw [h1, h2]
  simp only [c1Config, c1A, c1BMoved, c1C, calculateContentSize,
    calculatePositions, positionsLoop, calculateCrossAxisOffset, minLeftOf,
    minTopOf, getBoundsWidth, getBoundsHeight, createDefaultConfig, List.map,
    List.foldl, List.length, String.reduceEq, reduceCtorEq, if_false, if_true,
    reduceIte, Nat.reduceSub, Nat.cast_ofNat, LayoutParts.mk.injEq]
  norm_num [minStep, maxStep]

set_option maxHeartbeats 1000000 in
theorem c1_twice : applyLayoutPass c1OnceSet c1Config = c1TwiceSet := by
  unfold applyLayoutPass applyLayoutWith
  rw [c1_parts2]
  rw [if_neg (by simp [c1Config]), if_neg (by simp)]
  rw [show c1OnceSet.children = [c1A, c1BMoved, c1C] from rfl]
  rw [applyWalk_all_normal _ _ _ _ _ (by decide) (by decide)]
  simp only [List.zipWith]
  norm_num [c1TwiceSet, c1OnceSet, c1Container, moveWithEpsilon,
    translateBounds, eps, c1Config, createDefaultConfig, c1A, c1BMoved, c1C,
    c1CMoved, abs_of_nonneg, abs_of_nonpos]

/-- C1 counterexample: the full pass is not idempotent within epsilon on every
tree.  On a row container whose children sit within epsilon of a laid-out
state (sub-epsilon deltas are suppressed), the second pass moves child `c`
by 0.0016 > 1e-3: one pass leaves it at 24999/1250, two passes at
25001/1250. -/
theorem C1_counterexample :
    (applyLayoutPass c1Container c1Config).children.map
        (fun c => c.bounds.left) = [1/1250, 10, 24999/1250] ∧
    (applyLayoutPass (applyLayoutPass c1Container c1Config)
          c1Config).children.map (fun c => c.bounds.left) =
      [1/1250, 10, 25001/1250] ∧
    eps < |(25001/1250 : ℚ) - 24999/1250| := by
  rw [c1_once, c1_twice]
  refine ⟨?_, ?_, ?_⟩
  · simp [c1OnceSet, c1Container, c1A, c1BMoved, c1C]
  · simp [c1TwiceSet, c1Container, c1A, c1BMoved, c1CMoved]
  · have h : (25001/1250 : ℚ) - 24999/1250 = 1/625 := by norm_num
    rw [h, abs_of_nonneg (by norm_num)]
    norm_num [eps]

theorem minStep_eq_min (a v : ℚ) : minStep a v = min a v := by
  unfold minStep
  rcases le_or_lt a v with h | h
  · rw [if_neg (by linarith), min_eq_left h]
  · rw [if_pos h, min_eq_right (le_of_lt h)]

set_option maxHeartbeats 1000000 in
/-- C2 amended: for a row container in auto-size mode with justify start,
three visible flow children of widths 10, 20, 30 and gap 5, the main-axis
x-offsets relative to the anchor (the minimum left of the flow children) are
0, 15 and 40 — not 45 as the claim states — and the measured content width
is 70. -/
theorem C2_row_gap_offsets_amended (x1 y1 k1 x2 y2 k2 x3 y3 k3 : ℚ) :
    ((layoutParts (c2Container x1 y1 k1 x2 y2 k2 x3 y3 k3)
          c2Config).positions.map ComputedPosition.x) =
      [min (min x1 x2) x3, min (min x1 x2) x3 + 15, min (min x1 x2) x3 + 40] ∧
    (layoutParts (c2Container x1 y1 k1 x2 y2 k2 x3 y3 k3)
        c2Config).contentSize.width = 70 := by
  have h1 : (c2Container x1 y1 k1 x2 y2 k2 x3 y3 k3).children.filter
      visibleNormal = (c2Container x1 y1 k1 x2 y2 k2 x3 y3 k3).children := rfl
  have h2 : (c2Container x1 y1 k1 x2 y2 k2 x3 y3 k3).children.filter
      visibleContent = [] := rfl
  unfold layoutParts
  rw [h1, h2]
  simp only [c2Config, c2Container, calculateContentSize, calculatePositions,
    positionsLoop, calculateCrossAxisOffset, minLeftOf, minTopOf,
    getBoundsWidth, getBoundsHeight, createDefaultConfig, List.map,
    List.foldl, List.length, String.reduceEq, reduceCtorEq, if_false, if_true,
    reduceIte, Nat.reduceSub, Nat.cast_ofNat, minStep_eq_min]
  norm_num
  constructor <;> ring

set_option maxHeartbeats 1000000 in
/-- C5 amended: a fixed-size container with a 100×50 content child at
(cl, ct), padding (top 8, right 16, bottom 8, left 16), one 20×20 flow child,
items-center and justify-center places the child at local offset (40, 15)
within the content rectangle — not (48, 15) as claimed:
x = padLeft + (availableMain − 20)/2 = 16 + (68−20)/2 = 40. -/
theorem C5_padding_containment_amended (cl ct x0 y0 : ℚ) :
    (layoutParts (c5Container cl ct x0 y0) c5Config).positions =
      [{ x := cl + 40, y := ct + 15 }] := by
  have h1 : (c5Container cl ct x0 y0).children.filter visibleNormal =
      [{ name := "child", visible := true, kind := "NORMAL"
         bounds := { left := x0, top := y0, right := x0 + 20, bottom := y0 + 20 } }] :=
    rfl
  have h2 : (c5Container cl ct x0 y0).children.filter visibleContent =
      [{ name := ".content", visible := true, kind := "NORMAL"
         bounds := { left := cl, top := ct, right := cl + 100, bottom := ct + 50 } }] :=
    rfl
  have h3 : (parseLayoutName ".content").resizeContent = false := by decide
  unfold layoutParts
  rw [h1, h2]
  simp only [c5Config, c5Container, calculateContentSize, calculatePositions,
    positionsLoop, calculateCrossAxisOffset, minLeftOf, minTopOf,
    getBoundsWidth, getBoundsHeight, createDefaultConfig, List.map,
    List.foldl, List.length, List.head?, List.isEmpty, h3,
    String.reduceEq, reduceCtorEq, if_false, if_true,
    reduceIte, Nat.reduceSub, Nat.cast_ofNat, minStep_eq_min]
  norm_num
  constructor <;> ring

set_option maxHeartbeats 1000000 in
/-- C4: justify-between in fixed-size mode ignores the static gap `g` and
uses dynamicGap = (availableMain − Σ childMain)/(n−1) when it is positive:
with three children the start offsets are 0, w1 + d and w1 + w2 + 2d where
d = (availableMain − (w1+w2+w3))/2.  At available 100 and widths 10,10,10
this gives d = 35 and offsets 0, 45, 90. -/
theorem C4_between_distribution (cx cy w hc x1 y1 w1 k1 x2 y2 w2 k2 x3 y3 w3 k3 g : ℚ)
    (hrem : 0 < w - (w1 + w2 + w3)) :
    ((layoutParts (c4Container cx cy w hc x1 y1 w1 k1 x2 y2 w2 k2 x3 y3 w3 k3)
          (c4Config g)).positions.map ComputedPosition.x) =
      [cx, cx + w1 + (w - (w1 + w2 + w3)) / 2,
        cx + w1 + w2 + 2 * ((w - (w1 + w2 + w3)) / 2)] := by
  have h1 : (c4Container cx cy w hc x1 y1 w1 k1 x2 y2 w2 k2 x3 y3 w3
      k3).children.filter visibleNormal =
      [{ name := "a", visible := true, kind := "NORMAL"
         bounds := { left := x1, top := y1, right := x1 + w1, bottom := y1 + k1 } },
       { name := "b", visible := true, kind := "NORMAL"
         bounds := { left := x2, top := y2, right := x2 + w2, bottom := y2 + k2 } },
       { name := "c", visible := true, kind := "NORMAL"
         bounds := { left := x3, top := y3, right := x3 + w3, bottom := y3 + k3 } }] :=
    rfl
  have h2 : (c4Container cx cy w hc x1 y1 w1 k1 x2 y2 w2 k2 x3 y3 w3
      k3).children.filter visibleContent =
      [{ name := ".content", visible := true, kind := "NORMAL"
         bounds := { left := cx, top := cy, right := cx + w, bottom := cy + hc } }] :=
    rfl
  have h3 : (parseLayoutName ".content").resizeContent = false := by decide
  unfold layoutParts
  rw [h1, h2]
  simp only [c4Config, c4Container, calculateContentSize, calculatePositions,
    positionsLoop, calculateCrossAxisOffset, minLeftOf, minTopOf,
    getBoundsWidth, getBoundsHeight, createDefaultConfig, List.map,
    List.foldl, List.length, List.head?, List.isEmpty, h3,
    String.reduceEq, reduceCtorEq, if_false, if_true,
    reduceIte, Nat.reduceSub, Nat.cast_ofNat, minStep_eq_min]
  norm_num
  constructor
  · intro hcon
    linarith
  · rw [if_pos (by linarith)]
    ring

theorem boundsContains_refl (b : Bounds) : boundsContains b b := by
  unfold boundsContains
  refine ⟨le_refl _, le_refl _, le_refl _, le_refl _⟩

theorem unionStep_contains_left (acc b : Bounds) :
    boundsContains (unionStep acc b) acc := by
  unfold unionStep boundsContains
  refine ⟨?_, ?_, ?_, ?_⟩ <;> dsimp only <;> split <;> linarith

theorem unionStep_contains_right (acc b : Bounds) :
    boundsContains (unionStep acc b) b := by
  unfold unionStep boundsContains
  refine ⟨?_, ?_, ?_, ?_⟩ <;> dsimp only <;> split <;> linarith

theorem unionStep_least (r acc b : Bounds) (h1 : boundsContains r acc)
    (h2 : boundsContains r b) : boundsContains r (unionStep acc b) := by
  unfold boundsContains at h1 h2 ⊢
  unfold unionStep
  refine ⟨?_, ?_, ?_, ?_⟩ <;> dsimp only <;> split <;>
    first
    | exact h1.1 | exact h2.1
    | (rcases h1 with ⟨_, _, _, _⟩
       rcases h2 with ⟨_, _, _, _⟩
       linarith)

theorem boundsContains_trans (a b c : Bounds) (h1 : boundsContains a b)
    (h2 : boundsContains b c) : boundsContains a c := by
  unfold boundsContains at h1 h2 ⊢
  rcases h1 with ⟨_, _, _, _⟩
  rcases h2 with ⟨_, _, _, _⟩
  refine ⟨by linarith, by linarith, by linarith, by linarith⟩

theorem foldl_unionStep_contains (l : List Bounds) :
    ∀ acc : Bounds, boundsContains (l.foldl unionStep acc) acc ∧
      ∀ b ∈ l, boundsContains (l.foldl unionStep acc) b := by
  induction l with
  | nil =>
    intro acc
    exact ⟨boundsContains_refl acc, by intro b hb; simp at hb⟩
  | cons x xs ih =>
    intro acc
    have hstep := ih (unionStep acc x)
    constructor
    · exact boundsContains_trans _ _ _ hstep.1 (unionStep_contains_left acc x)
    · intro b hb
      rcases List.mem_cons.mp hb with h | h
      · subst h
        exact boundsContains_trans _ _ _ hstep.1 (unionStep_contains_right acc b)
      · exact hstep.2 b h

theorem foldl_unionStep_least (l : List Bounds) :
    ∀ acc r : Bounds, boundsContains r acc → (∀ b ∈ l, boundsContains r b) →
      boundsContains r (l.foldl unionStep acc) := by
  induction l with
  | nil => intro acc r h _; exact h
  | cons x xs ih =>
    intro acc r hacc hall
    exact ih (unionStep acc x) r
      (unionStep_least r acc x hacc (hall x (List.mem_cons_self _ _)))
      (fun b hb => hall b (List.mem_cons_of_mem _ hb))

/-- C10: `getUnionBounds` returns the zero rectangle on the empty list; on
a non-empty list it returns the least rectangle containing every input
(every input is contained in it, and it is contained in every rectangle
containing all inputs); a singleton list returns its element unchanged. -/
theorem C10_union_bounds_spec :
    getUnionBounds [] = { left := 0, top := 0, right := 0, bottom := 0 } ∧
    (∀ l : List Bounds, l ≠ [] →
      (∀ b ∈ l, boundsContains (getUnionBounds l) b) ∧
      (∀ r : Bounds, (∀ b ∈ l, boundsContains r b) →
        boundsContains r (getUnionBounds l))) ∧
    (∀ b : Bounds, getUnionBounds [b] = b) := by
  refine ⟨rfl, ?_, fun b => rfl⟩
  intro l hl
  match l, hl with
  | b :: rest, _ =>
    constructor
    · intro c hc
      rcases List.mem_cons.mp hc with h | h
      · subst h
        exact (foldl_unionStep_contains rest c).1
      · exact (foldl_unionStep_contains rest b).2 c h
    · intro r hr
      exact foldl_unionStep_least rest b r (hr b (List.mem_cons_self _ _))
        (fun c hc => hr c (List.mem_cons_of_mem _ hc))

theorem parseGap_nonneg (cls : List Char) : 0 ≤ parseGap cls := by
  unfold parseGap
  cases h : searchGap cls with
  | none => exact le_refl 0
  | some n => exact Nat.cast_nonneg n

set_option maxHeartbeats 2000000 in
theorem applyClass_gap (config : LayoutConfig) (cls : List Char) :
    (applyClass config cls).gap = config.gap ∨
      (applyClass config cls).gap = parseGap cls := by
  by_cases h0 : cls = []
  · exact Or.inl (by simp [applyClass, h0])
  by_cases h1 : cls = "hstack".data
  · exact Or.inl (by simp [applyClass, h0, h1])
  by_cases h2 : cls = "vstack".data
  · exact Or.inl (by simp [applyClass, h0, h1, h2])
  by_cases h3 : cls = "content".data
  · exact Or.inl (by simp [applyClass, h0, h1, h2, h3])
  by_cases h4 : cls = "resize".data
  · exact Or.inl (by simp [applyClass, h0, h1, h2, h3, h4])
  by_cases h5 : cls = "rounded".data
  · exact Or.inl (by simp [applyClass, h0, h1, h2, h3, h4, h5])
  by_cases h6 : cls = "fixed".data
  · exact Or.inl (by simp [applyClass, h0, h1, h2, h3, h4, h5, h6])
  by_cases h7 : cls = "relative".data
  · exact Or.inl (by simp [applyClass, h0, h1, h2, h3, h4, h5, h6, h7])
  by_cases h8 : cls = "backdrop".data
  · exact Or.inl (by simp [applyClass, h0, h1, h2, h3, h4, h5, h6, h7, h8])
  by_cases h9 : cls = "items-start".data
  · exact Or.inl (by simp [applyClass, h0, h1, h2, h3, h4, h5, h6, h7, h8, h9])
  by_cases h10 : cls = "items-center".data
  · exact Or.inl (by simp [applyClass, h0, h1, h2, h3, h4, h5, h6, h7, h8, h9, h10])
  by_cases h11 : cls = "items-end".data
  · exact Or.inl (by simp [applyClass, h0, h1, h2, h3, h4, h5, h6, h7, h8, h9, h10, h11])
  by_cases h12 : cls = "justify-start".data
  · exact Or.inl (by simp [applyClass, h0, h1, h2, h3, h4, h5, h6, h7, h8, h9, h10, h11, h12])
  by_cases h13 : cls = "justify-center".data
  · exact Or.inl (by simp [applyClass, h0, h1, h2, h3, h4, h5, h6, h7, h8, h9, h10, h11, h12, h13])
  by_cases h14 : cls = "justify-end".data
  · exact Or.inl (by simp [applyClass, h0, h1, h2, h3, h4, h5, h6, h7, h8, h9, h10, h11, h12, h13, h14])
  by_cases h15 : cls = "justify-between".data
  · exact Or.inl (by simp [applyClass, h0, h1, h2, h3, h4, h5, h6, h7, h8, h9, h10, h11, h12, h13, h14, h15])
  by_cases h16 : hasPrefixChars "gap(".data cls = true
  · exact Or.inr (by simp [applyClass, h0, h1, h2, h3, h4, h5, h6, h7, h8, h9, h10, h11, h12, h13, h14, h15, h16])
  by_cases h17 : hasPrefixChars "padding(".data cls = true
  · exact Or.inl (by simp [applyClass, h0, h1, h2, h3, h4, h5, h6, h7, h8, h9, h10, h11, h12, h13, h14, h15, h16, h17])
  exact Or.inl (by simp [applyClass, h0, h1, h2, h3, h4, h5, h6, h7, h8, h9, h10, h11, h12, h13, h14, h15, h16, h17])

theorem foldl_applyClass_gap_nonneg (l : List (List Char)) :
    ∀ config : LayoutConfig, 0 ≤ config.gap →
      0 ≤ (l.foldl applyClass config).gap := by
  induction l with
  | nil => intro config h; exact h
  | cons x xs ih =>
    intro config h
    apply ih
    rcases applyClass_gap config x with he | he
    · rw [he]; exact h
    · rw [he]; exact parseGap_nonneg x

/-- C9 amended: the gap of every parsed configuration is non-negative (the
gap regex only accepts digit runs); the padding side of the claim fails — see
the counterexample. -/
theorem C9_gap_nonneg_amended (s : String) : 0 ≤ (parseLayoutName s).gap := by
  rcases hdata : s.data with _ | ⟨c, cs⟩
  · simp [parseLayoutName, hdata, createDefaultConfig]
  · by_cases hc : c = '.'
    · simp only [parseLayoutName, hdata]
      rw [if_neg (by simp [hc])]
      exact foldl_applyClass_gap_nonneg _ createDefaultConfig (le_refl 0)
    · simp only [parseLayoutName, hdata]
      rw [if_pos hc]
      simp [createDefaultConfig]

/-- C9 counterexample: `.padding(-5)` parses to padding −5 on all four
sides, because `parsePadding` captures `[^)]+` and JS `parseInt` accepts a
sign; so parsed configurations do not always have non-negative padding. -/
theorem C9_counterexample :
    (parseLayoutName ".padding(-5)").padding.top = -5 ∧
    (parseLayoutName ".padding(-5)").padding.left < 0 := by decide

/-- C8: `parseLayoutName` is total (it is a Lean function into
`LayoutConfig`); an empty name or one not starting with the `.` marker
yields the all-default configuration; a malformed gap argument (`.gap(x)`)
and a malformed padding argument (`.padding(a)`) resolve to zero rather than
an error; unrecognized segments are ignored. -/
theorem C8_parser_totality_defaults :
    (∀ s : String, s.data = [] ∨ s.data.head? ≠ some '.' →
      parseLayoutName s = createDefaultConfig) ∧
    parseLayoutName ".gap(x)" = createDefaultConfig ∧
    parseLayoutName ".hstack.padding(a)" =
      { createDefaultConfig with direction := some "horizontal" } ∧
    parseLayoutName ".hstack.unknowntoken" = parseLayoutName ".hstack" := by
  refine ⟨?_, by decide, by decide, by decide⟩
  intro s hs
  rcases hdata : s.data with _ | ⟨c, cs⟩
  · simp [parseLayoutName, hdata]
  · have hc : c ≠ '.' := by
      rcases hs with h1 | h1
      · rw [hdata] at h1
        cases h1
      · rw [hdata] at h1
        simp at h1
        exact h1
    simp only [parseLayoutName, hdata]
    rw [if_pos hc]

theorem calculateContentSize_no_direction (l : List Bounds)
    (cfg : LayoutConfig) (hne : l ≠ [])
    (hh : cfg.direction ≠ some "horizontal")
    (hv : cfg.direction ≠ some "vertical") :
    calculateContentSize l cfg =
      { width := (l.map getBoundsWidth).foldl maxStep 0
        height := (l.map getBoundsHeight).foldl maxStep 0 } := by
  unfold calculateContentSize
  rw [if_neg hne, if_neg hh, if_neg hv]
  rw [List.foldl_map, List.foldl_map]

/-- C3 amended: for a container with no direction and a non-empty list of
flow children, the measured extent is the maximum child width by the maximum
child height (each bounded below by 0 and attained by a child unless 0), with
no gap applied — not the bounding-union extent, which it equals only when
the children share a common top-left. -/
theorem C3_no_direction_extent_amended (l : List Bounds) (cfg : LayoutConfig) (hne : l ≠ [])
    (hh : cfg.direction ≠ some "horizontal")
    (hv : cfg.direction ≠ some "vertical") :
    (∀ b ∈ l, getBoundsWidth b ≤ (calculateContentSize l cfg).width ∧
      getBoundsHeight b ≤ (calculateContentSize l cfg).height) ∧
    ((calculateContentSize l cfg).width = 0 ∨
      ∃ b ∈ l, (calculateContentSize l cfg).width = getBoundsWidth b) ∧
    ((calculateContentSize l cfg).height = 0 ∨
      ∃ b ∈ l, (calculateContentSize l cfg).height = getBoundsHeight b) ∧
    (∀ g : ℚ, calculateContentSize l { cfg with gap := g } =
      calculateContentSize l cfg) := by
  rw [calculateContentSize_no_direction l cfg hne hh hv]
  refine ⟨?_, ?_, ?_, ?_⟩
  · intro b hb
    constructor
    · exact foldl_maxStep_ge_mem _ 0 _ (List.mem_map_of_mem getBoundsWidth hb)
    · exact foldl_maxStep_ge_mem _ 0 _ (List.mem_map_of_mem getBoundsHeight hb)
  · rcases foldl_maxStep_cases (l.map getBoundsWidth) 0 with h | ⟨v, hv2, he⟩
    · exact Or.inl h
    · rcases List.mem_map.mp hv2 with ⟨b, hb, rfl⟩
      exact Or.inr ⟨b, hb, he⟩
  · rcases foldl_maxStep_cases (l.map getBoundsHeight) 0 with h | ⟨v, hv2, he⟩
    · exact Or.inl h
    · rcases List.mem_map.mp hv2 with ⟨b, hb, rfl⟩
      exact Or.inr ⟨b, hb, he⟩
  · intro g
    rw [calculateContentSize_no_direction l _ hne (by simpa using hh)
      (by simpa using hv)]

/-- C3 counterexample: for two 10×10 children at x = 0 and x = 100, the
no-direction content extent has width 10 (max of the widths) while the
bounding union is 110 wide. -/
theorem C3_counterexample :
    (calculateContentSize c3BoundsList createDefaultConfig).width = 10 ∧
    getBoundsWidth (getUnionBounds c3BoundsList) = 110 ∧
    (calculateContentSize c3BoundsList createDefaultConfig).width ≠
      getBoundsWidth (getUnionBounds c3BoundsList) := by
  norm_num [calculateContentSize, getUnionBounds, unionStep, c3BoundsList,
    getBoundsWidth, getBoundsHeight, maxStep, createDefaultConfig]
  simp

set_option maxHeartbeats 1000000 in
/-- C2 counterexample: at a concrete instance of the claimed scenario the
x-offsets are [0, 15, 40], not the claimed [0, 15, 45]: the third offset is
w1 + gap + w2 + gap = 10 + 5 + 20 + 5 = 40. -/
theorem C2_counterexample :
    ((layoutParts (c2Container 0 0 10 20 0 7 50 0 3)
          c2Config).positions.map ComputedPosition.x) = [0, 15, 40] ∧
    ((layoutParts (c2Container 0 0 10 20 0 7 50 0 3)
          c2Config).positions.map ComputedPosition.x) ≠ [0, 15, 45] := by
  have h1 : (c2Container 0 0 10 20 0 7 50 0 3).children.filter
      visibleNormal = (c2Container 0 0 10 20 0 7 50 0 3).children := rfl
  have h2 : (c2Container 0 0 10 20 0 7 50 0 3).children.filter
      visibleContent = [] := rfl
  unfold layoutParts
  rw [h1, h2]
  simp only [c2Config, c2Container, calculateContentSize, calculatePositions,
    positionsLoop, calculateCrossAxisOffset, minLeftOf, minTopOf,
    getBoundsWidth, getBoundsHeight, createDefaultConfig, List.map,
    List.foldl, List.length, String.reduceEq, reduceCtorEq, if_false, if_true,
    reduceIte, Nat.reduceSub, Nat.cast_ofNat, minStep_eq_min]
  norm_num

set_option maxHeartbeats 1000000 in
/-- C5 counterexample: at the concrete instance of the claimed scenario the
computed child position is (40, 15), not the claimed (48, 15). -/
theorem C5_counterexample :
    (layoutParts (c5Container 0 0 5 5) c5Config).positions =
      [{ x := 40, y := 15 }] ∧
    (layoutParts (c5Container 0 0 5 5) c5Config).positions ≠
      [{ x := 48, y := 15 }] := by
  have h1 : (c5Container 0 0 5 5).children.filter visibleNormal =
      [{ name := "child", visible := true, kind := "NORMAL"
         bounds := { left := 5, top := 5, right := 5 + 20, bottom := 5 + 20 } }] :=
    rfl
  have h2 : (c5Container 0 0 5 5).children.filter visibleContent =
      [{ name := ".content", visible := true, kind := "NORMAL"
         bounds := { left := 0, top := 0, right := 0 + 100, bottom := 0 + 50 } }] :=
    rfl
  have h3 : (parseLayoutName ".content").resizeContent = false := by decide
  unfold layoutParts
  rw [h1, h2]
  simp only [c5Config, c5Container, calculateContentSize, calculatePositions,
    positionsLoop, calculateCrossAxisOffset, minLeftOf, minTopOf,
    getBoundsWidth, getBoundsHeight, createDefaultConfig, List.map,
    List.foldl, List.length, List.head?, List.isEmpty, h3,
    String.reduceEq, reduceCtorEq, if_false, if_true,
    reduceIte, Nat.reduceSub, Nat.cast_ofNat, minStep_eq_min]
  norm_num

/-- C6: fixed-layer canvas invariance.  A fixed-flagged child recorded at
(200, 20) ends the pass within epsilon of (200, 20) for every translation
(dx, dy) the container receives and every drift (px, py) the extracted layer
accumulated while parked at document root (the corrective translation snaps
it back when the drift exceeds epsilon); with no drift it ends exactly at
(200, 20). -/
theorem C6_fixed_canvas_invariance (dx dy px py : ℚ) :
    ∃ c : Layer,
      (processContainerModel [c6Fixed, c6Body] dx dy
          (fun _ => (px, py))).find? (fun l => l.id = 0) = some c ∧
      |c.bounds.left - 200| ≤ eps ∧ |c.bounds.top - 20| ≤ eps ∧
      (px = 0 → py = 0 → c.bounds.left = 200 ∧ c.bounds.top = 20) := by
  have hrec : extractRecords [c6Fixed, c6Body] 0 =
      [{ layer := c6Fixed, siblingAfter := some c6Body,
         absoluteX := 200, absoluteY := 20, isRelative := false,
         isBackdrop := false, isAdjustment := false, extractionOrder := 0 }] := by
    decide
  have hrem : [c6Fixed, c6Body].filter (fun c => !shouldExtract c) = [c6Body] := by
    decide
  unfold processContainerModel
  rw [hrec, hrem]
  simp only [List.filter, sortByOrder, insertByOrder, List.foldl, List.map,
    restoreOne, insertBeforeId, correctiveMove, translateBounds, c6Fixed, c6Body]
  norm_num
  split_ifs with hx
  · refine ⟨_, Or.inl ⟨by norm_num, rfl⟩, ?_, ?_, ?_⟩
    · norm_num [eps]
    · norm_num [eps]
    · intro hpx hpy
      norm_num
  · push_neg at hx
    refine ⟨_, Or.inl ⟨by norm_num, rfl⟩, ?_, ?_, ?_⟩
    · simpa using hx.1
    · simpa using hx.2
    · intro hpx hpy
      subst hpx
      subst hpy
      norm_num

/-- C7: the claim's example [A(fixed), B, C(backdrop), D] is restored to
[A, B, C, D], but restoration does not reproduce the pre-pass order for
every container: with [A(fixed), B(fixed, invisible), D] the sibling search
skips the invisible fixed-named child B (which is not extracted), records D
as A's following sibling, and the pass restores to [B, A, D]. -/
theorem C7_failing_input_eval :
    (processContainerModel c7Failing 0 0 (fun _ => (0, 0))).map Layer.name =
      [".b.fixed", ".a.fixed", "d"] ∧
    (processContainerModel c7Failing 0 0 (fun _ => (0, 0))).map Layer.name ≠
      c7Failing.map Layer.name ∧
    (processContainerModel c7Example 0 0 (fun _ => (0, 0))).map Layer.name =
      c7Example.map Layer.name := by
  have hrecF : extractRecords c7Failing 0 =
      [{ layer := c7FA, siblingAfter := some c7FD,
         absoluteX := 0, absoluteY := 0, isRelative := false,
         isBackdrop := false, isAdjustment := false, extractionOrder := 0 }] := by
    decide
  have hremF : c7Failing.filter (fun c => !shouldExtract c) = [c7FB, c7FD] := by
    decide
  have hrecE : extractRecords c7Example 0 =
      [{ layer := c7ExA, siblingAfter := some c7ExB,
         absoluteX := 0, absoluteY := 0, isRelative := false,
         isBackdrop := false, isAdjustment := false, extractionOrder := 0 },
       { layer := c7ExC, siblingAfter := some c7ExD,
         absoluteX := 0, absoluteY := 20, isRelative := false,
         isBackdrop := true, isAdjustment := false, extractionOrder := 1 }] := by
    decide
  have hremE : c7Example.filter (fun c => !shouldExtract c) = [c7ExB, c7ExD] := by
    decide
  refine ⟨?_, ?_, ?_⟩
  · unfold processContainerModel
    rw [hrecF, hremF]
    simp only [List.filter, sortByOrder, insertByOrder, List.foldl, List.map,
      restoreOne, insertBeforeId, correctiveMove, translateBounds, eps,
      c7FA, c7FB, c7FD]
    norm_num
  · unfold processContainerModel
    rw [hrecF, hremF]
    simp only [List.filter, sortByOrder, insertByOrder, List.foldl, List.map,
      restoreOne, insertBeforeId, correctiveMove, translateBounds, eps,
      c7FA, c7FB, c7FD, c7Failing]
    norm_num
    decide
  · unfold processContainerModel
    rw [hrecE, hremE]
    simp only [List.filter, sortByOrder, insertByOrder, List.foldl, List.map,
      restoreOne, insertBeforeId, correctiveMove, translateBounds, eps,
      c7ExA, c7ExB, c7ExC, c7ExD, c7Example]
    norm_num

theorem C3_no_direction_extent_witness :
    c3BoundsList ≠ [] ∧
    ∀ b ∈ c3BoundsList,
      getBoundsWidth b ≤
        (calculateContentSize c3BoundsList createDefaultConfig).width ∧
      getBoundsHeight b ≤
        (calculateContentSize c3BoundsList createDefaultConfig).height :=
  ⟨by decide,
    (C3_no_direction_extent_amended c3BoundsList createDefaultConfig
      (by decide) (by decide) (by decide)).1⟩

theorem C4_between_distribution_witness :
    (0 : ℚ) < 100 - (10 + 10 + 10) ∧
    ((layoutParts (c4Container 0 0 100 50 3 0 10 10 20 5 10 10 60 2 10 10)
          (c4Config 5)).positions.map ComputedPosition.x) = [0, 45, 90] := by
  refine ⟨by norm_num, ?_⟩
  have h := C4_between_distribution 0 0 100 50 3 0 10 10 20 5 10 10 60 2 10
    10 5 (by norm_num)
  rw [h]
  norm_num

theorem C6_fixed_canvas_invariance_witness :
    ∃ c : Layer,
      (processContainerModel [c6Fixed, c6Body] 30 (-10)
          (fun _ => ((0 : ℚ), (0 : ℚ)))).find? (fun l => l.id = 0) = some c ∧
      c.bounds.left = 200 ∧ c.bounds.top = 20 := by
  obtain ⟨c, h1, _, _, h4⟩ := C6_fixed_canvas_invariance 30 (-10) 0 0
  exact ⟨c, h1, (h4 rfl rfl).1, (h4 rfl rfl).2⟩

theorem C8_parser_totality_witness :
    parseLayoutName "Background" = createDefaultConfig :=
  C8_parser_totality_defaults.1 "Background" (Or.inr (by decide))

theorem C10_union_bounds_witness :
    c3BoundsList ≠ [] ∧
    (∀ b ∈ c3BoundsList, boundsContains (getUnionBounds c3BoundsList) b) ∧
    (∀ r : Bounds, (∀ b ∈ c3BoundsList, boundsContains r b) →
      boundsContains r (getUnionBounds c3BoundsList)) :=
  ⟨by decide, C10_union_bounds_spec.2.1 c3BoundsList (by decide)⟩

end Loom
namespace Loom

theorem Bounds_ext (u v : Bounds) (h1 : u.left = v.left) (h2 : u.top = v.top)
    (h3 : u.right = v.right) (h4 : u.bottom = v.bottom) : u = v := by
  cases u
  cases v
  simp_all

theorem moveExact_left (b : Bounds) (p : ComputedPosition) :
    (moveExact b p).left = p.x := by
  unfold moveExact translateBounds
  ring

theorem moveExact_top (b : Bounds) (p : ComputedPosition) :
    (moveExact b p).top = p.y := by
  unfold moveExact translateBounds
  ring

theorem moveExact_width (b : Bounds) (p : ComputedPosition) :
    getBoundsWidth (moveExact b p) = getBoundsWidth b := by
  unfold moveExact translateBounds getBoundsWidth
  ring

theorem moveExact_height (b : Bounds) (p : ComputedPosition) :
    getBoundsHeight (moveExact b p) = getBoundsHeight b := by
  unfold moveExact translateBounds getBoundsHeight
  ring

theorem moveExact_size (b : Bounds) (p : ComputedPosition) :
    boundsSize (moveExact b p) = boundsSize b := by
  unfold boundsSize
  rw [moveExact_width, moveExact_height]

theorem moveWithEpsilon_self (b : Bounds) (p : ComputedPosition)
    (hx : b.left = p.x) (hy : b.top = p.y) : moveWithEpsilon b p = b := by
  unfold moveWithEpsilon
  rw [← hx, ← hy]
  rw [if_neg]
  push_neg
  constructor <;> norm_num [eps]

theorem resizeLayerTo_self (b : Bounds) :
    resizeLayerTo b { width := getBoundsWidth b, height := getBoundsHeight b } = b := by
  unfold resizeLayerTo
  split_ifs with h
  · rfl
  · exact Bounds_ext _ _ rfl rfl (by unfold getBoundsWidth; ring)
      (by unfold getBoundsHeight; ring)

theorem moveExact_self (b : Bounds) :
    moveExact b { x := b.left, y := b.top } = b := by
  unfold moveExact translateBounds
  exact Bounds_ext _ _ (by ring) (by ring) (by ring) (by ring)

theorem resizeLayerTo_width (b : Bounds) (CS : SizeWH)
    (h : ¬(getBoundsWidth b < eps ∨ getBoundsHeight b < eps)) :
    getBoundsWidth (resizeLayerTo b CS) = CS.width ∧
    getBoundsHeight (resizeLayerTo b CS) = CS.height := by
  unfold resizeLayerTo
  rw [if_neg h]
  unfold getBoundsWidth getBoundsHeight
  constructor <;> dsimp only <;> ring

theorem resizeLayerTo_of_deg (b : Bounds) (CS : SizeWH)
    (h : getBoundsWidth b < eps ∨ getBoundsHeight b < eps) :
    resizeLayerTo b CS = b := by
  unfold resizeLayerTo
  rw [if_pos h]

theorem resizeLayerTo_of_pos (b : Bounds) (CS : SizeWH)
    (h : ¬(getBoundsWidth b < eps ∨ getBoundsHeight b < eps)) :
    resizeLayerTo b CS =
      { left := b.left, top := b.top, right := b.left + CS.width
        bottom := b.top + CS.height } := by
  unfold resizeLayerTo
  rw [if_neg h]

theorem content_fix (b : Bounds) (CS : SizeWH) (T : ComputedPosition) :
    moveWithEpsilon (resizeLayerTo (moveExact (resizeLayerTo b CS) T) CS) T =
      moveExact (resizeLayerTo b CS) T := by
  have hleft : (moveExact (resizeLayerTo b CS) T).left = T.x := moveExact_left _ _
  have htop : (moveExact (resizeLayerTo b CS) T).top = T.y := moveExact_top _ _
  by_cases hdeg : getBoundsWidth (moveExact (resizeLayerTo b CS) T) < eps ∨
      getBoundsHeight (moveExact (resizeLayerTo b CS) T) < eps
  · rw [resizeLayerTo_of_deg _ _ hdeg]
    exact moveWithEpsilon_self _ _ hleft htop
  · have hb : ¬(getBoundsWidth b < eps ∨ getBoundsHeight b < eps) := by
      intro hcon
      apply hdeg
      rw [moveExact_width, moveExact_height, resizeLayerTo_of_deg b CS hcon]
      exact hcon
    have hsz := resizeLayerTo_width b CS hb
    have hw : getBoundsWidth (moveExact (resizeLayerTo b CS) T) = CS.width := by
      rw [moveExact_width]
      exact hsz.1
    have hh : getBoundsHeight (moveExact (resizeLayerTo b CS) T) = CS.height := by
      rw [moveExact_height]
      exact hsz.2
    unfold getBoundsWidth at hw
    unfold getBoundsHeight at hh
    have heq : resizeLayerTo (moveExact (resizeLayerTo b CS) T) CS =
        moveExact (resizeLayerTo b CS) T := by
      rw [resizeLayerTo_of_pos _ _ hdeg]
      refine Bounds_ext _ _ rfl rfl (by dsimp only; linarith)
        (by dsimp only; linarith)
    rw [heq]
    exact moveWithEpsilon_self _ _ hleft htop

theorem visibleNormal_update (c : Layer) (b : Bounds) :
    visibleNormal { c with bounds := b } = visibleNormal c := rfl

theorem visibleContent_update (c : Layer) (b : Bounds) :
    visibleContent { c with bounds := b } = visibleContent c := rfl

theorem isAdjustmentLayer_update (c : Layer) (b : Bounds) :
    isAdjustmentLayer { c with bounds := b } = isAdjustmentLayer c := rfl

theorem applyWalk_cons_invisible (mv : Bounds → ComputedPosition → Bounds)
    (T : ComputedPosition) (CS : SizeWH) (c : Layer) (rest : List Layer)
    (ps : List ComputedPosition) (hv : isLayerVisible c = false) :
    applyWalk mv T CS (c :: rest) ps = c :: applyWalk mv T CS rest ps := by
  simp [applyWalk, hv]

theorem applyWalk_cons_content (mv : Bounds → ComputedPosition → Bounds)
    (T : ComputedPosition) (CS : SizeWH) (c : Layer) (rest : List Layer)
    (ps : List ComputedPosition) (hv : isLayerVisible c = true)
    (hc : isContentLayer c.name = true) (hadj : isAdjustmentLayer c = false) :
    applyWalk mv T CS (c :: rest) ps =
      { c with bounds := mv (if (parseLayoutName c.name).isContent then
          resizeLayerTo c.bounds CS else c.bounds) T } ::
        applyWalk mv T CS rest ps := by
  simp [applyWalk, hv, hc, hadj]

theorem applyWalk_cons_normal (mv : Bounds → ComputedPosition → Bounds)
    (T : ComputedPosition) (CS : SizeWH) (c : Layer) (rest : List Layer)
    (p : ComputedPosition) (pt : List ComputedPosition)
    (hv : isLayerVisible c = true) (hc : isContentLayer c.name = false)
    (hadj : isAdjustmentLayer c = false) :
    applyWalk mv T CS (c :: rest) (p :: pt) =
      { c with bounds := mv c.bounds p } :: applyWalk mv T CS rest pt := by
  simp [applyWalk, hv, hc, hadj]

theorem applyWalk_filter_normal (mv : Bounds → ComputedPosition → Bounds)
    (T : ComputedPosition) (CS : SizeWH) :
    ∀ (children : List Layer) (ps : List ComputedPosition),
      (∀ c ∈ children, isAdjustmentLayer c = false) →
      (children.filter visibleNormal).length = ps.length →
      (applyWalk mv T CS children ps).filter visibleNormal =
        List.zipWith (fun c p => { c with bounds := mv c.bounds p })
          (children.filter visibleNormal) ps := by
  intro children
  induction children with
  | nil => intro ps _ _; simp [applyWalk]
  | cons c rest ih =>
    intro ps hadj hlen
    have hadjc : isAdjustmentLayer c = false := hadj c (List.mem_cons_self _ _)
    have hadjr : ∀ x ∈ rest, isAdjustmentLayer x = false :=
      fun x hx => hadj x (List.mem_cons_of_mem _ hx)
    by_cases hv : isLayerVisible c
    · by_cases hc : isContentLayer c.name
      · have hvn : visibleNormal c = false := by
          simp [visibleNormal, hv, hc]
        rw [applyWalk_cons_content mv T CS c rest ps hv hc hadjc]
        rw [List.filter_cons_of_neg (by simp [visibleNormal_update, hvn]),
          List.filter_cons_of_neg (by simp [hvn])]
        apply ih ps hadjr
        rw [← hlen, List.filter_cons_of_neg (by simp [hvn])]
      · have hvn : visibleNormal c = true := by
          simp [visibleNormal, hv, hc]
        rw [List.filter_cons_of_pos (by simp [hvn])] at hlen ⊢
        cases ps with
        | nil => simp at hlen
        | cons p pt =>
          rw [applyWalk_cons_normal mv T CS c rest p pt hv
            (by simpa using hc) hadjc]
          rw [List.filter_cons_of_pos (by simp [visibleNormal_update, hvn])]
          simp only [List.zipWith]
          congr 1
          apply ih pt hadjr
          simpa using hlen
    · have hvn : visibleNormal c = false := by
        simp [visibleNormal, hv]
      rw [applyWalk_cons_invisible mv T CS c rest ps (by simpa using hv)]
      rw [List.filter_cons_of_neg (by simp [hvn]),
        List.filter_cons_of_neg (by simp [hvn])]
      apply ih ps hadjr
      rw [← hlen, List.filter_cons_of_neg (by simp [hvn])]

theorem applyWalk_filter_content (mv : Bounds → ComputedPosition → Bounds)
    (T : ComputedPosition) (CS : SizeWH) :
    ∀ (children : List Layer) (ps : List ComputedPosition),
      (∀ c ∈ children, isAdjustmentLayer c = false) →
      (applyWalk mv T CS children ps).filter visibleContent =
        (children.filter visibleContent).map
          (fun c => { c with bounds := mv (if (parseLayoutName c.name).isContent
            then resizeLayerTo c.bounds CS else c.bounds) T }) := by
  intro children
  induction children with
  | nil => intro ps _; simp [applyWalk]
  | cons c rest ih =>
    intro ps hadj
    have hadjc : isAdjustmentLayer c = false := hadj c (List.mem_cons_self _ _)
    have hadjr : ∀ x ∈ rest, isAdjustmentLayer x = false :=
      fun x hx => hadj x (List.mem_cons_of_mem _ hx)
    by_cases hv : isLayerVisible c
    · by_cases hc : isContentLayer c.name
      · have hvc : visibleContent c = true := by
          simp [visibleContent, hv, hc]
        rw [applyWalk_cons_content mv T CS c rest ps hv hc hadjc]
        rw [List.filter_cons_of_pos (by simp [visibleContent_update, hvc]),
          List.filter_cons_of_pos (by simp [hvc])]
        simp only [List.map]
        congr 1
        exact ih ps hadjr
      · have hvc : visibleContent c = false := by
          simp [visibleContent, hv, hc]
        cases ps with
        | nil =>
          have hstep : applyWalk mv T CS (c :: rest) [] =
              c :: applyWalk mv T CS rest [] := by
            simp [applyWalk, hv, hc, hadjc]
          rw [hstep, List.filter_cons_of_neg (by simp [hvc]),
            List.filter_cons_of_neg (by simp [hvc])]
          exact ih [] hadjr
        | cons p pt =>
          rw [applyWalk_cons_normal mv T CS c rest p pt hv
            (by simpa using hc) hadjc]
          rw [List.filter_cons_of_neg (by simp [visibleContent_update, hvc]),
            List.filter_cons_of_neg (by simp [hvc])]
          exact ih pt hadjr
    · have hvc : visibleContent c = false := by
        simp [visibleContent, hv]
      rw [applyWalk_cons_invisible mv T CS c rest ps (by simpa using hv)]
      rw [List.filter_cons_of_neg (by simp [hvc]),
        List.filter_cons_of_neg (by simp [hvc])]
      exact ih ps hadjr

theorem applyWalk_adjFree (mv : Bounds → ComputedPosition → Bounds)
    (T : ComputedPosition) (CS : SizeWH) :
    ∀ (children : List Layer) (ps : List ComputedPosition),
      (∀ c ∈ children, isAdjustmentLayer c = false) →
      ∀ x ∈ applyWalk mv T CS children ps, isAdjustmentLayer x = false := by
  intro children
  induction children with
  | nil => intro ps _ x hx; simp [applyWalk] at hx
  | cons c rest ih =>
    intro ps hadj x hx
    have hadjc : isAdjustmentLayer c = false := hadj c (List.mem_cons_self _ _)
    have hadjr : ∀ y ∈ rest, isAdjustmentLayer y = false :=
      fun y hy => hadj y (List.mem_cons_of_mem _ hy)
    by_cases hv : isLayerVisible c
    · by_cases hc : isContentLayer c.name
      · rw [applyWalk_cons_content mv T CS c rest ps hv hc hadjc] at hx
        rcases List.mem_cons.mp hx with h | h
        · subst h
          rw [isAdjustmentLayer_update]
          exact hadjc
        · exact ih ps hadjr x h
      · cases ps with
        | nil =>
          have hstep : applyWalk mv T CS (c :: rest) [] =
              c :: applyWalk mv T CS rest [] := by
            simp [applyWalk, hv, hc, hadjc]
          rw [hstep] at hx
          rcases List.mem_cons.mp hx with h | h
          · subst h; exact hadjc
          · exact ih [] hadjr x h
        | cons p pt =>
          rw [applyWalk_cons_normal mv T CS c rest p pt hv
            (by simpa using hc) hadjc] at hx
          rcases List.mem_cons.mp hx with h | h
          · subst h
            rw [isAdjustmentLayer_update]
            exact hadjc
          · exact ih pt hadjr x h
    · rw [applyWalk_cons_invisible mv T CS c rest ps (by simpa using hv)] at hx
      rcases List.mem_cons.mp hx with h | h
      · subst h; exact hadjc
      · exact ih ps hadjr x h

theorem applyWalk_id (T : ComputedPosition) (CS : SizeWH) :
    ∀ (children : List Layer) (ps : List ComputedPosition),
      (∀ c ∈ children, isAdjustmentLayer c = false) →
      List.Forall₂ (fun (c : Layer) (p : ComputedPosition) =>
          c.bounds.left = p.x ∧ c.bounds.top = p.y)
        (children.filter visibleNormal) ps →
      (∀ c ∈ children, visibleContent c = true →
        moveWithEpsilon (if (parseLayoutName c.name).isContent then
          resizeLayerTo c.bounds CS else c.bounds) T = c.bounds) →
      applyWalk moveWithEpsilon T CS children ps = children := by
  intro children
  induction children with
  | nil => intro ps _ _ _; simp [applyWalk]
  | cons c rest ih =>
    intro ps hadj hf2 hcontent
    have hadjc : isAdjustmentLayer c = false := hadj c (List.mem_cons_self _ _)
    have hadjr : ∀ x ∈ rest, isAdjustmentLayer x = false :=
      fun x hx => hadj x (List.mem_cons_of_mem _ hx)
    have hcontentr : ∀ x ∈ rest, visibleContent x = true →
        moveWithEpsilon (if (parseLayoutName x.name).isContent then
          resizeLayerTo x.bounds CS else x.bounds) T = x.bounds :=
      fun x hx => hcontent x (List.mem_cons_of_mem _ hx)
    by_cases hv : isLayerVisible c
    · by_cases hc : isContentLayer c.name
      · have hvn : visibleNormal c = false := by
          simp [visibleNormal, hv, hc]
        have hvc : visibleContent c = true := by
          simp [visibleContent, hv, hc]
        rw [applyWalk_cons_content moveWithEpsilon T CS c rest ps hv hc hadjc]
        rw [hcontent c (List.mem_cons_self _ _) hvc]
        rw [List.filter_cons_of_neg (by simp [hvn])] at hf2
        rw [ih ps hadjr hf2 hcontentr]
      · have hvn : visibleNormal c = true := by
          simp [visibleNormal, hv, hc]
        rw [List.filter_cons_of_pos (by simp [hvn])] at hf2
        rcases hf2 with _ | ⟨⟨hx, hy⟩, hf2t⟩
        rw [applyWalk_cons_normal moveWithEpsilon T CS c rest _ _ hv
          (by simpa using hc) hadjc]
        rw [moveWithEpsilon_self _ _ hx hy]
        rw [ih _ hadjr hf2t hcontentr]
    · have hvn : visibleNormal c = false := by
        simp [visibleNormal, hv]
      rw [applyWalk_cons_invisible moveWithEpsilon T CS c rest ps
        (by simpa using hv)]
      rw [List.filter_cons_of_neg (by simp [hvn])] at hf2
      rw [ih ps hadjr hf2 hcontentr]

theorem positionsLoop_length (config : LayoutConfig) (avail : SizeWH)
    (sx sy dg : ℚ) :
    ∀ (l : List Bounds) (cx cy : ℚ),
      (positionsLoop config avail sx sy dg l cx cy).length = l.length := by
  intro l
  induction l with
  | nil => intro cx cy; simp [positionsLoop]
  | cons b rest ih =>
    intro cx cy
    unfold positionsLoop
    split_ifs <;> simp [ih]

theorem calculatePositions_length (l : List Bounds) (config : LayoutConfig)
    (avail : SizeWH) (sx sy : ℚ) :
    (calculatePositions l config avail sx sy).length = l.length := by
  unfold calculatePositions
  by_cases h : l = []
  · rw [if_pos h, h]
    rfl
  · rw [if_neg h]
    exact positionsLoop_length _ _ _ _ _ l _ _

theorem boundsSize_width (b b2 : Bounds) (h : boundsSize b = boundsSize b2) :
    getBoundsWidth b = getBoundsWidth b2 := by
  unfold boundsSize at h
  exact congrArg Prod.fst h

theorem boundsSize_height (b b2 : Bounds) (h : boundsSize b = boundsSize b2) :
    getBoundsHeight b = getBoundsHeight b2 := by
  unfold boundsSize at h
  exact congrArg Prod.snd h

theorem foldl_width_congr (l1 l2 : List Bounds)
    (h : l1.map boundsSize = l2.map boundsSize) (a : ℚ) :
    l1.foldl (fun acc b => acc + getBoundsWidth b) a =
      l2.foldl (fun acc b => acc + getBoundsWidth b) a := by
  have h1 : l1.foldl (fun acc b => acc + getBoundsWidth b) a =
      (l1.map boundsSize).foldl (fun acc s => acc + s.1) a := by
    rw [List.foldl_map]
    rfl
  have h2 : l2.foldl (fun acc b => acc + getBoundsWidth b) a =
      (l2.map boundsSize).foldl (fun acc s => acc + s.1) a := by
    rw [List.foldl_map]
    rfl
  rw [h1, h2, h]

theorem foldl_height_congr (l1 l2 : List Bounds)
    (h : l1.map boundsSize = l2.map boundsSize) (a : ℚ) :
    l1.foldl (fun acc b => acc + getBoundsHeight b) a =
      l2.foldl (fun acc b => acc + getBoundsHeight b) a := by
  have h1 : l1.foldl (fun acc b => acc + getBoundsHeight b) a =
      (l1.map boundsSize).foldl (fun acc s => acc + s.2) a := by
    rw [List.foldl_map]
    rfl
  have h2 : l2.foldl (fun acc b => acc + getBoundsHeight b) a =
      (l2.map boundsSize).foldl (fun acc s => acc + s.2) a := by
    rw [List.foldl_map]
    rfl
  rw [h1, h2, h]

theorem foldl_maxw_congr (l1 l2 : List Bounds)
    (h : l1.map boundsSize = l2.map boundsSize) (a : ℚ) :
    l1.foldl (fun acc b => maxStep acc (getBoundsWidth b)) a =
      l2.foldl (fun acc b => maxStep acc (getBoundsWidth b)) a := by
  have h1 : l1.foldl (fun acc b => maxStep acc (getBoundsWidth b)) a =
      (l1.map boundsSize).foldl (fun acc s => maxStep acc s.1) a := by
    rw [List.foldl_map]
    rfl
  have h2 : l2.foldl (fun acc b => maxStep acc (getBoundsWidth b)) a =
      (l2.map boundsSize).foldl (fun acc s => maxStep acc s.1) a := by
    rw [List.foldl_map]
    rfl
  rw [h1, h2, h]

theorem foldl_maxh_congr (l1 l2 : List Bounds)
    (h : l1.map boundsSize = l2.map boundsSize) (a : ℚ) :
    l1.foldl (fun acc b => maxStep acc (getBoundsHeight b)) a =
      l2.foldl (fun acc b => maxStep acc (getBoundsHeight b)) a := by
  have h1 : l1.foldl (fun acc b => maxStep acc (getBoundsHeight b)) a =
      (l1.map boundsSize).foldl (fun acc s => maxStep acc s.2) a := by
    rw [List.foldl_map]
    rfl
  have h2 : l2.foldl (fun acc b => maxStep acc (getBoundsHeight b)) a =
      (l2.map boundsSize).foldl (fun acc s => maxStep acc s.2) a := by
    rw [List.foldl_map]
    rfl
  rw [h1, h2, h]

theorem calculateContentSize_congr (l1 l2 : List Bounds)
    (config : LayoutConfig) (h : l1.map boundsSize = l2.map boundsSize) :
    calculateContentSize l1 config = calculateContentSize l2 config := by
  have hlen : l1.length = l2.length := by
    have := congrArg List.length h
    simpa using this
  have hnil : l1 = [] ↔ l2 = [] := by
    constructor <;> intro he <;> [skip; skip] <;>
      first
      | (apply List.length_eq_zero.mp; rw [← hlen, he]; rfl)
      | (apply List.length_eq_zero.mp; rw [hlen, he]; rfl)
  unfold calculateContentSize
  by_cases he : l1 = []
  · rw [if_pos he, if_pos (hnil.mp he)]
  · rw [if_neg he, if_neg (fun hx => he (hnil.mpr hx))]
    rw [foldl_width_congr l1 l2 h, foldl_height_congr l1 l2 h,
      foldl_maxw_congr l1 l2 h, foldl_maxh_congr l1 l2 h, hlen]

theorem positionsLoop_congr (config : LayoutConfig) (avail : SizeWH)
    (sx sy dg : ℚ) :
    ∀ (l1 l2 : List Bounds), l1.map boundsSize = l2.map boundsSize →
      ∀ cx cy : ℚ,
        positionsLoop config avail sx sy dg l1 cx cy =
          positionsLoop config avail sx sy dg l2 cx cy := by
  intro l1
  induction l1 with
  | nil =>
    intro l2 h cx cy
    cases l2 with
    | nil => rfl
    | cons b2 r2 => simp at h
  | cons b1 r1 ih =>
    intro l2 h cx cy
    cases l2 with
    | nil => simp at h
    | cons b2 r2 =>
      simp only [List.map, List.cons.injEq] at h
      have hw := boundsSize_width b1 b2 h.1
      have hh := boundsSize_height b1 b2 h.1
      unfold positionsLoop
      simp only []
      split_ifs with hd1 hd2 <;> rw [hw, hh, ih r2 h.2]

theorem calculatePositions_congr (l1 l2 : List Bounds)
    (config : LayoutConfig) (avail : SizeWH) (sx sy : ℚ)
    (h : l1.map boundsSize = l2.map boundsSize) :
    calculatePositions l1 config avail sx sy =
      calculatePositions l2 config avail sx sy := by
  have hlen : l1.length = l2.length := by
    have := congrArg List.length h
    simpa using this
  have hnil : l1 = [] ↔ l2 = [] := by
    constructor <;> intro he
    · apply List.length_eq_zero.mp
      rw [← hlen, he]
      rfl
    · apply List.length_eq_zero.mp
      rw [hlen, he]
      rfl
  unfold calculatePositions
  by_cases he : l1 = []
  · rw [if_pos he, if_pos (hnil.mp he)]
  · rw [if_neg he, if_neg (fun hx => he (hnil.mpr hx))]
    simp only
    rw [foldl_width_congr l1 l2 h, foldl_height_congr l1 l2 h, hlen,
      positionsLoop_congr config avail sx sy _ l1 l2 h]

theorem layoutParts_normalLayers (ls : LayerSet) (cfg : LayoutConfig) :
    (layoutParts ls cfg).normalLayers = ls.children.filter visibleNormal := rfl

theorem layoutParts_contentLayers (ls : LayerSet) (cfg : LayoutConfig) :
    (layoutParts ls cfg).contentLayers = ls.children.filter visibleContent := rfl

theorem layoutParts_normalBounds (ls : LayerSet) (cfg : LayoutConfig) :
    (layoutParts ls cfg).normalBounds =
      (ls.children.filter visibleNormal).map Layer.bounds := rfl

theorem layoutParts_contentSize (ls : LayerSet) (cfg : LayoutConfig) :
    (layoutParts ls cfg).contentSize =
      calculateContentSize ((ls.children.filter visibleNormal).map Layer.bounds)
        cfg := rfl

theorem layoutParts_useFixedSize (ls : LayerSet) (cfg : LayoutConfig) :
    (layoutParts ls cfg).useFixedSize =
      (!(ls.children.filter visibleContent).isEmpty &&
        !(match (ls.children.filter visibleContent).head? with
          | some c => (parseLayoutName c.name).resizeContent
          | none => false)) := rfl

theorem layoutParts_availableSpace (ls : LayerSet) (cfg : LayoutConfig) :
    (layoutParts ls cfg).availableSpace =
      (if (layoutParts ls cfg).useFixedSize then
        { width :=
            getBoundsWidth (match (ls.children.filter visibleContent).head? with
              | some c => c.bounds
              | none => ls.bounds) - cfg.padding.left - cfg.padding.right
          height :=
            getBoundsHeight (match (ls.children.filter visibleContent).head? with
              | some c => c.bounds
              | none => ls.bounds) - cfg.padding.top - cfg.padding.bottom }
      else (layoutParts ls cfg).contentSize) := rfl

theorem layoutParts_containerSize (ls : LayerSet) (cfg : LayoutConfig) :
    (layoutParts ls cfg).containerSize =
      (if (layoutParts ls cfg).useFixedSize then
        { width :=
            getBoundsWidth (match (ls.children.filter visibleContent).head? with
              | some c => c.bounds
              | none => ls.bounds)
          height :=
            getBoundsHeight (match (ls.children.filter visibleContent).head? with
              | some c => c.bounds
              | none => ls.bounds) }
      else
        { width := (layoutParts ls cfg).contentSize.width + cfg.padding.left +
            cfg.padding.right
          height := (layoutParts ls cfg).contentSize.height + cfg.padding.top +
            cfg.padding.bottom }) := rfl

theorem layoutParts_contentStartX (ls : LayerSet) (cfg : LayoutConfig) :
    (layoutParts ls cfg).contentStartX =
      (if !((ls.children.filter visibleNormal).map Layer.bounds).isEmpty &&
          !(layoutParts ls cfg).useFixedSize then
        minLeftOf ((ls.children.filter visibleNormal).map Layer.bounds)
      else if (layoutParts ls cfg).useFixedSize then
        (match (ls.children.filter visibleContent).head? with
          | some c => c.bounds
          | none => ls.bounds).left + cfg.padding.left
      else ls.bounds.left) := rfl

theorem layoutParts_contentStartY (ls : LayerSet) (cfg : LayoutConfig) :
    (layoutParts ls cfg).contentStartY =
      (if !((ls.children.filter visibleNormal).map Layer.bounds).isEmpty &&
          !(layoutParts ls cfg).useFixedSize then
        minTopOf ((ls.children.filter visibleNormal).map Layer.bounds)
      else if (layoutParts ls cfg).useFixedSize then
        (match (ls.children.filter visibleContent).head? with
          | some c => c.bounds
          | none => ls.bounds).top + cfg.padding.top
      else ls.bounds.top) := rfl

theorem layoutParts_positions (ls : LayerSet) (cfg : LayoutConfig) :
    (layoutParts ls cfg).positions =
      calculatePositions ((ls.children.filter visibleNormal).map Layer.bounds)
        cfg (layoutParts ls cfg).availableSpace
        (layoutParts ls cfg).contentStartX (layoutParts ls cfg).contentStartY :=
  rfl

theorem calculateContentSize_horizontal (l : List Bounds) (cfg : LayoutConfig)
    (hne : l ≠ []) (hdir : cfg.direction = some "horizontal") :
    calculateContentSize l cfg =
      { width := l.foldl (fun acc b => acc + getBoundsWidth b) 0 +
          cfg.gap * ((l.length - 1 : ℕ) : ℚ)
        height := l.foldl (fun acc b => maxStep acc (getBoundsHeight b)) 0 } := by
  unfold calculateContentSize
  rw [if_neg hne, if_pos hdir]

theorem calculateContentSize_vertical (l : List Bounds) (cfg : LayoutConfig)
    (hne : l ≠ []) (hdir : cfg.direction = some "vertical") :
    calculateContentSize l cfg =
      { width := l.foldl (fun acc b => maxStep acc (getBoundsWidth b)) 0
        height := l.foldl (fun acc b => acc + getBoundsHeight b) 0 +
          cfg.gap * ((l.length - 1 : ℕ) : ℚ) } := by
  unfold calculateContentSize
  rw [if_neg hne, if_neg (by rw [hdir]; simp), if_pos hdir]

theorem cross_nonneg (h H : ℚ) (a : String) (hle : h ≤ H) :
    0 ≤ calculateCrossAxisOffset h H a := by
  unfold calculateCrossAxisOffset
  split_ifs <;> linarith

theorem cross_self (x : ℚ) (a : String) : calculateCrossAxisOffset x x a = 0 := by
  unfold calculateCrossAxisOffset
  split_ifs <;> ring

theorem calculatePositions_eq_loop_H (l : List Bounds) (cfg : LayoutConfig)
    (avail : SizeWH) (sx sy : ℚ) (hne : l ≠ [])
    (hdir : cfg.direction = some "horizontal")
    (hw : avail.width = l.foldl (fun acc b => acc + getBoundsWidth b) 0 +
      cfg.gap * ((l.length - 1 : ℕ) : ℚ)) :
    calculatePositions l cfg avail sx sy =
      positionsLoop cfg avail sx sy cfg.gap l sx sy := by
  unfold calculatePositions
  rw [if_neg hne]
  simp only []
  have hdg : (if cfg.direction = some "horizontal" then
      (if cfg.justify = "between" ∧ 1 < l.length then
        (if 0 < avail.width - l.foldl (fun acc b => acc + getBoundsWidth b) 0
          then (avail.width - l.foldl (fun acc b => acc + getBoundsWidth b) 0) /
            ((l.length - 1 : ℕ) : ℚ)
          else cfg.gap)
      else cfg.gap)
    else if cfg.direction = some "vertical" then
      (if cfg.justify = "between" ∧ 1 < l.length then
        (if 0 < avail.height - l.foldl (fun acc b => acc + getBoundsHeight b) 0
          then (avail.height - l.foldl (fun acc b => acc + getBoundsHeight b) 0) /
            ((l.length - 1 : ℕ) : ℚ)
          else cfg.gap)
      else cfg.gap)
    else cfg.gap) = cfg.gap := by
    rw [if_pos hdir]
    by_cases hj : cfg.justify = "between" ∧ 1 < l.length
    · rw [if_pos hj]
      have hrem : avail.width -
          l.foldl (fun acc b => acc + getBoundsWidth b) 0 =
          cfg.gap * ((l.length - 1 : ℕ) : ℚ) := by
        rw [hw]
        ring
      by_cases h0 : 0 < avail.width -
          l.foldl (fun acc b => acc + getBoundsWidth b) 0
      · rw [if_pos h0, hrem]
        have hc : ((l.length - 1 : ℕ) : ℚ) ≠ 0 := by
          intro hz
          rw [hrem, hz] at h0
          simp at h0
        field_simp
      · rw [if_neg h0]
    · rw [if_neg hj]
  have hmoff : (if cfg.direction = some "horizontal" then
      (if cfg.justify = "center" then
        (avail.width - (l.foldl (fun acc b => acc + getBoundsWidth b) 0 +
          cfg.gap * ((l.length - 1 : ℕ) : ℚ))) / 2
      else if cfg.justify = "end" then
        avail.width - (l.foldl (fun acc b => acc + getBoundsWidth b) 0 +
          cfg.gap * ((l.length - 1 : ℕ) : ℚ))
      else 0)
    else if cfg.direction = some "vertical" then
      (if cfg.justify = "center" then
        (avail.height - (l.foldl (fun acc b => acc + getBoundsHeight b) 0 +
          cfg.gap * ((l.length - 1 : ℕ) : ℚ))) / 2
      else if cfg.justify = "end" then
        avail.height - (l.foldl (fun acc b => acc + getBoundsHeight b) 0 +
          cfg.gap * ((l.length - 1 : ℕ) : ℚ))
      else 0)
    else 0) = 0 := by
    rw [if_pos hdir]
    split_ifs <;> first | rfl | (rw [hw]; ring)
  rw [hdg, hmoff, if_pos hdir, if_neg (by rw [hdir]; simp)]
  rw [add_zero, add_zero]

theorem calculatePositions_eq_loop_V (l : List Bounds) (cfg : LayoutConfig)
    (avail : SizeWH) (sx sy : ℚ) (hne : l ≠ [])
    (hdir : cfg.direction = some "vertical")
    (hh : avail.height = l.foldl (fun acc b => acc + getBoundsHeight b) 0 +
      cfg.gap * ((l.length - 1 : ℕ) : ℚ)) :
    calculatePositions l cfg avail sx sy =
      positionsLoop cfg avail sx sy cfg.gap l sx sy := by
  have hdirh : cfg.direction ≠ some "horizontal" := by
    rw [hdir]
    simp
  unfold calculatePositions
  rw [if_neg hne]
  simp only []
  have hdg : (if cfg.direction = some "horizontal" then
      (if cfg.justify = "between" ∧ 1 < l.length then
        (if 0 < avail.width - l.foldl (fun acc b => acc + getBoundsWidth b) 0
          then (avail.width - l.foldl (fun acc b => acc + getBoundsWidth b) 0) /
            ((l.length - 1 : ℕ) : ℚ)
          else cfg.gap)
      else cfg.gap)
    else if cfg.direction = some "vertical" then
      (if cfg.justify = "between" ∧ 1 < l.length then
        (if 0 < avail.height - l.foldl (fun acc b => acc + getBoundsHeight b) 0
          then (avail.height - l.foldl (fun acc b => acc + getBoundsHeight b) 0) /
            ((l.length - 1 : ℕ) : ℚ)
          else cfg.gap)
      else cfg.gap)
    else cfg.gap) = cfg.gap := by
    rw [if_neg hdirh, if_pos hdir]
    by_cases hj : cfg.justify = "between" ∧ 1 < l.length
    · rw [if_pos hj]
      have hrem : avail.height -
          l.foldl (fun acc b => acc + getBoundsHeight b) 0 =
          cfg.gap * ((l.length - 1 : ℕ) : ℚ) := by
        rw [hh]
        ring
      by_cases h0 : 0 < avail.height -
          l.foldl (fun acc b => acc + getBoundsHeight b) 0
      · rw [if_pos h0, hrem]
        have hc : ((l.length - 1 : ℕ) : ℚ) ≠ 0 := by
          intro hz
          rw [hrem, hz] at h0
          simp at h0
        field_simp
      · rw [if_neg h0]
    · rw [if_neg hj]
  have hmoff : (if cfg.direction = some "horizontal" then
      (if cfg.justify = "center" then
        (avail.width - (l.foldl (fun acc b => acc + getBoundsWidth b) 0 +
          cfg.gap * ((l.length - 1 : ℕ) : ℚ))) / 2
      else if cfg.justify = "end" then
        avail.width - (l.foldl (fun acc b => acc + getBoundsWidth b) 0 +
          cfg.gap * ((l.length - 1 : ℕ) : ℚ))
      else 0)
    else if cfg.direction = some "vertical" then
      (if cfg.justify = "center" then
        (avail.height - (l.foldl (fun acc b => acc + getBoundsHeight b) 0 +
          cfg.gap * ((l.length - 1 : ℕ) : ℚ))) / 2
      else if cfg.justify = "end" then
        avail.height - (l.foldl (fun acc b => acc + getBoundsHeight b) 0 +
          cfg.gap * ((l.length - 1 : ℕ) : ℚ))
      else 0)
    else 0) = 0 := by
    rw [if_neg hdirh, if_pos hdir]
    split_ifs <;> first | rfl | (rw [hh]; ring)
  rw [hdg, hmoff, if_pos hdir, if_neg hdirh]
  rw [add_zero, add_zero]

theorem calculatePositions_eq_loop_N (l : List Bounds) (cfg : LayoutConfig)
    (avail : SizeWH) (sx sy : ℚ) (hne : l ≠ [])
    (hdh : cfg.direction ≠ some "horizontal")
    (hdv : cfg.direction ≠ some "vertical") :
    calculatePositions l cfg avail sx sy =
      positionsLoop cfg avail sx sy cfg.gap l sx sy := by
  unfold calculatePositions
  rw [if_neg hne]
  simp only []
  rw [if_neg hdh, if_neg hdv, if_neg hdh, if_neg hdh, if_neg hdv]
  rw [add_zero, add_zero]

theorem posLoop_cons_H (cfg : LayoutConfig) (avail : SizeWH) (sx sy dg : ℚ)
    (b : Bounds) (rest : List Bounds) (cx cy : ℚ)
    (hdir : cfg.direction = some "horizontal") :
    positionsLoop cfg avail sx sy dg (b :: rest) cx cy =
      { x := cx
        y := sy + calculateCrossAxisOffset (getBoundsHeight b) avail.height
          cfg.items } ::
        positionsLoop cfg avail sx sy dg rest (cx + getBoundsWidth b + dg) cy := by
  simp only [positionsLoop]
  rw [if_pos hdir]

theorem posLoop_cons_V (cfg : LayoutConfig) (avail : SizeWH) (sx sy dg : ℚ)
    (b : Bounds) (rest : List Bounds) (cx cy : ℚ)
    (hdir : cfg.direction = some "vertical") :
    positionsLoop cfg avail sx sy dg (b :: rest) cx cy =
      { x := sx + calculateCrossAxisOffset (getBoundsWidth b) avail.width
          cfg.items
        y := cy } ::
        positionsLoop cfg avail sx sy dg rest cx (cy + getBoundsHeight b + dg) := by
  simp only [positionsLoop]
  rw [if_neg (by rw [hdir]; simp), if_pos hdir]

theorem posLoop_cons_N (cfg : LayoutConfig) (avail : SizeWH) (sx sy dg : ℚ)
    (b : Bounds) (rest : List Bounds) (cx cy : ℚ)
    (hdh : cfg.direction ≠ some "horizontal")
    (hdv : cfg.direction ≠ some "vertical") :
    positionsLoop cfg avail sx sy dg (b :: rest) cx cy =
      { x := sx + calculateCrossAxisOffset (getBoundsWidth b) avail.width
          cfg.items
        y := sy + calculateCrossAxisOffset (getBoundsHeight b) avail.height
          cfg.items } ::
        positionsLoop cfg avail sx sy dg rest cx cy := by
  simp only [positionsLoop]
  rw [if_neg hdh, if_neg hdv]

theorem posLoopH_x_lb (cfg : LayoutConfig) (avail : SizeWH) (sx sy dg : ℚ)
    (hdir : cfg.direction = some "horizontal") (hdg : 0 ≤ dg) :
    ∀ (l : List Bounds) (cx cy : ℚ), (∀ b ∈ l, 0 ≤ getBoundsWidth b) →
      ∀ p ∈ positionsLoop cfg avail sx sy dg l cx cy, cx ≤ p.x := by
  intro l
  induction l with
  | nil => intro cx cy _ p hp; simp [positionsLoop] at hp
  | cons b rest ih =>
    intro cx cy hwf p hp
    rw [posLoop_cons_H cfg avail sx sy dg b rest cx cy hdir] at hp
    rcases List.mem_cons.mp hp with h | h
    · subst h
      exact le_refl cx
    · have hb : 0 ≤ getBoundsWidth b := hwf b (List.mem_cons_self _ _)
      have := ih (cx + getBoundsWidth b + dg) cy
        (fun x hx => hwf x (List.mem_cons_of_mem _ hx)) p h
      linarith

theorem posLoopH_head_x (cfg : LayoutConfig) (avail : SizeWH) (sx sy dg : ℚ)
    (b : Bounds) (rest : List Bounds) (cx cy : ℚ)
    (hdir : cfg.direction = some "horizontal") :
    ∃ p ∈ positionsLoop cfg avail sx sy dg (b :: rest) cx cy, p.x = cx := by
  rw [posLoop_cons_H cfg avail sx sy dg b rest cx cy hdir]
  exact ⟨_, List.mem_cons_self _ _, rfl⟩

theorem posLoopH_y_char (cfg : LayoutConfig) (avail : SizeWH) (sx sy dg : ℚ)
    (hdir : cfg.direction = some "horizontal") :
    ∀ (l : List Bounds) (cx cy : ℚ),
      ∀ p ∈ positionsLoop cfg avail sx sy dg l cx cy,
        ∃ b ∈ l, p.y = sy + calculateCrossAxisOffset (getBoundsHeight b)
          avail.height cfg.items := by
  intro l
  induction l with
  | nil => intro cx cy p hp; simp [positionsLoop] at hp
  | cons b rest ih =>
    intro cx cy p hp
    rw [posLoop_cons_H cfg avail sx sy dg b rest cx cy hdir] at hp
    rcases List.mem_cons.mp hp with h | h
    · subst h
      exact ⟨b, List.mem_cons_self _ _, rfl⟩
    · rcases ih _ _ p h with ⟨b2, hb2, he⟩
      exact ⟨b2, List.mem_cons_of_mem _ hb2, he⟩

theorem posLoopH_y_mem (cfg : LayoutConfig) (avail : SizeWH) (sx sy dg : ℚ)
    (hdir : cfg.direction = some "horizontal") :
    ∀ (l : List Bounds) (cx cy : ℚ) (b : Bounds), b ∈ l →
      ∃ p ∈ positionsLoop cfg avail sx sy dg l cx cy,
        p.y = sy + calculateCrossAxisOffset (getBoundsHeight b) avail.height
          cfg.items := by
  intro l
  induction l with
  | nil => intro cx cy b hb; simp at hb
  | cons c rest ih =>
    intro cx cy b hb
    rw [posLoop_cons_H cfg avail sx sy dg c rest cx cy hdir]
    rcases List.mem_cons.mp hb with h | h
    · subst h
      exact ⟨_, List.mem_cons_self _ _, rfl⟩
    · rcases ih (cx + getBoundsWidth c + dg) cy b h with ⟨p, hp, he⟩
      exact ⟨p, List.mem_cons_of_mem _ hp, he⟩

theorem posLoopV_y_lb (cfg : LayoutConfig) (avail : SizeWH) (sx sy dg : ℚ)
    (hdir : cfg.direction = some "vertical") (hdg : 0 ≤ dg) :
    ∀ (l : List Bounds) (cx cy : ℚ), (∀ b ∈ l, 0 ≤ getBoundsHeight b) →
      ∀ p ∈ positionsLoop cfg avail sx sy dg l cx cy, cy ≤ p.y := by
  intro l
  induction l with
  | nil => intro cx cy _ p hp; simp [positionsLoop] at hp
  | cons b rest ih =>
    intro cx cy hwf p hp
    rw [posLoop_cons_V cfg avail sx sy dg b rest cx cy hdir] at hp
    rcases List.mem_cons.mp hp with h | h
    · subst h
      exact le_refl cy
    · have hb : 0 ≤ getBoundsHeight b := hwf b (List.mem_cons_self _ _)
      have := ih cx (cy + getBoundsHeight b + dg)
        (fun x hx => hwf x (List.mem_cons_of_mem _ hx)) p h
      linarith

theorem posLoopV_head_y (cfg : LayoutConfig) (avail : SizeWH) (sx sy dg : ℚ)
    (b : Bounds) (rest : List Bounds) (cx cy : ℚ)
    (hdir : cfg.direction = some "vertical") :
    ∃ p ∈ positionsLoop cfg avail sx sy dg (b :: rest) cx cy, p.y = cy := by
  rw [posLoop_cons_V cfg avail sx sy dg b rest cx cy hdir]
  exact ⟨_, List.mem_cons_self _ _, rfl⟩

theorem posLoopV_x_char (cfg : LayoutConfig) (avail : SizeWH) (sx sy dg : ℚ)
    (hdir : cfg.direction = some "vertical") :
    ∀ (l : List Bounds) (cx cy : ℚ),
      ∀ p ∈ positionsLoop cfg avail sx sy dg l cx cy,
        ∃ b ∈ l, p.x = sx + calculateCrossAxisOffset (getBoundsWidth b)
          avail.width cfg.items := by
  intro l
  induction l with
  | nil => intro cx cy p hp; simp [positionsLoop] at hp
  | cons b rest ih =>
    intro cx cy p hp
    rw [posLoop_cons_V cfg avail sx sy dg b rest cx cy hdir] at hp
    rcases List.mem_cons.mp hp with h | h
    · subst h
      exact ⟨b, List.mem_cons_self _ _, rfl⟩
    · rcases ih _ _ p h with ⟨b2, hb2, he⟩
      exact ⟨b2, List.mem_cons_of_mem _ hb2, he⟩

theorem posLoopV_x_mem (cfg : LayoutConfig) (avail : SizeWH) (sx sy dg : ℚ)
    (hdir : cfg.direction = some "vertical") :
    ∀ (l : List Bounds) (cx cy : ℚ) (b : Bounds), b ∈ l →
      ∃ p ∈ positionsLoop cfg avail sx sy dg l cx cy,
        p.x = sx + calculateCrossAxisOffset (getBoundsWidth b) avail.width
          cfg.items := by
  intro l
  induction l with
  | nil => intro cx cy b hb; simp at hb
  | cons c rest ih =>
    intro cx cy b hb
    rw [posLoop_cons_V cfg avail sx sy dg c rest cx cy hdir]
    rcases List.mem_cons.mp hb with h | h
    · subst h
      exact ⟨_, List.mem_cons_self _ _, rfl⟩
    · rcases ih cx (cy + getBoundsHeight c + dg) b h with ⟨p, hp, he⟩
      exact ⟨p, List.mem_cons_of_mem _ hp, he⟩

theorem posLoopN_char (cfg : LayoutConfig) (avail : SizeWH) (sx sy dg : ℚ)
    (hdh : cfg.direction ≠ some "horizontal")
    (hdv : cfg.direction ≠ some "vertical") :
    ∀ (l : List Bounds) (cx cy : ℚ),
      ∀ p ∈ positionsLoop cfg avail sx sy dg l cx cy,
        ∃ b ∈ l, p.x = sx + calculateCrossAxisOffset (getBoundsWidth b)
            avail.width cfg.items ∧
          p.y = sy + calculateCrossAxisOffset (getBoundsHeight b)
            avail.height cfg.items := by
  intro l
  induction l with
  | nil => intro cx cy p hp; simp [positionsLoop] at hp
  | cons b rest ih =>
    intro cx cy p hp
    rw [posLoop_cons_N cfg avail sx sy dg b rest cx cy hdh hdv] at hp
    rcases List.mem_cons.mp hp with h | h
    · subst h
      exact ⟨b, List.mem_cons_self _ _, rfl, rfl⟩
    · rcases ih _ _ p h with ⟨b2, hb2, he⟩
      exact ⟨b2, List.mem_cons_of_mem _ hb2, he⟩

theorem posLoopN_mem (cfg : LayoutConfig) (avail : SizeWH) (sx sy dg : ℚ)
    (hdh : cfg.direction ≠ some "horizontal")
    (hdv : cfg.direction ≠ some "vertical") :
    ∀ (l : List Bounds) (cx cy : ℚ) (b : Bounds), b ∈ l →
      ∃ p ∈ positionsLoop cfg avail sx sy dg l cx cy,
        p.x = sx + calculateCrossAxisOffset (getBoundsWidth b) avail.width
            cfg.items ∧
        p.y = sy + calculateCrossAxisOffset (getBoundsHeight b) avail.height
            cfg.items := by
  intro l
  induction l with
  | nil => intro cx cy b hb; simp at hb
  | cons c rest ih =>
    intro cx cy b hb
    rw [posLoop_cons_N cfg avail sx sy dg c rest cx cy hdh hdv]
    rcases List.mem_cons.mp hb with h | h
    · subst h
      exact ⟨_, List.mem_cons_self _ _, rfl, rfl⟩
    · rcases ih cx cy b h with ⟨p, hp, he⟩
      exact ⟨p, List.mem_cons_of_mem _ hp, he⟩

theorem zipWith_moveExact_sizes :
    ∀ (nb : List Bounds) (ps : List ComputedPosition),
      nb.length = ps.length →
      (List.zipWith moveExact nb ps).map boundsSize = nb.map boundsSize := by
  intro nb
  induction nb with
  | nil => intro ps _; simp
  | cons b rest ih =>
    intro ps hlen
    cases ps with
    | nil => simp at hlen
    | cons p pt =>
      simp only [List.zipWith, List.map]
      rw [moveExact_size, ih pt (by simpa using hlen)]

theorem zipWith_moveExact_mem :
    ∀ (nb : List Bounds) (ps : List ComputedPosition) (b : Bounds),
      b ∈ List.zipWith moveExact nb ps →
      ∃ p ∈ ps, b.left = p.x ∧ b.top = p.y := by
  intro nb
  induction nb with
  | nil => intro ps b hb; simp at hb
  | cons c rest ih =>
    intro ps b hb
    cases ps with
    | nil => simp at hb
    | cons p pt =>
      simp only [List.zipWith] at hb
      rcases List.mem_cons.mp hb with h | h
      · subst h
        exact ⟨p, List.mem_cons_self _ _, moveExact_left _ _, moveExact_top _ _⟩
      · rcases ih pt b h with ⟨q, hq, he⟩
        exact ⟨q, List.mem_cons_of_mem _ hq, he⟩

theorem zipWith_moveExact_mem_rev :
    ∀ (nb : List Bounds) (ps : List ComputedPosition) (p : ComputedPosition),
      nb.length = ps.length → p ∈ ps →
      ∃ b ∈ List.zipWith moveExact nb ps, b.left = p.x ∧ b.top = p.y := by
  intro nb
  induction nb with
  | nil =>
    intro ps p hlen hp
    cases ps with
    | nil => simp at hp
    | cons q qt => simp at hlen
  | cons c rest ih =>
    intro ps p hlen hp
    cases ps with
    | nil => simp at hp
    | cons q qt =>
      simp only [List.zipWith]
      rcases List.mem_cons.mp hp with h | h
      · subst h
        exact ⟨moveExact c p, List.mem_cons_self _ _, moveExact_left _ _,
          moveExact_top _ _⟩
      · rcases ih qt p (by simpa using hlen) h with ⟨b, hb, he⟩
        exact ⟨b, List.mem_cons_of_mem _ hb, he⟩

theorem zipWith_moveExact_forall2 :
    ∀ (nb : List Bounds) (ps : List ComputedPosition),
      nb.length = ps.length →
      List.Forall₂ (fun (b : Bounds) (p : ComputedPosition) =>
          b.left = p.x ∧ b.top = p.y)
        (List.zipWith moveExact nb ps) ps := by
  intro nb
  induction nb with
  | nil =>
    intro ps hlen
    cases ps with
    | nil => simp
    | cons q qt => simp at hlen
  | cons c rest ih =>
    intro ps hlen
    cases ps with
    | nil => simp at hlen
    | cons q qt =>
      simp only [List.zipWith]
      exact List.Forall₂.cons ⟨moveExact_left _ _, moveExact_top _ _⟩
        (ih qt (by simpa using hlen))

theorem minLeftOf_eq_a (l : List Bounds) (a : ℚ)
    (hall : ∀ b ∈ l, a ≤ b.left) (hatt : ∃ b ∈ l, b.left = a) :
    minLeftOf l = a := by
  match l with
  | [] =>
    rcases hatt with ⟨b, hb, _⟩
    simp at hb
  | b :: rest =>
    show rest.foldl (fun acc c => minStep acc c.left) b.left = a
    have hmap : rest.foldl (fun acc c => minStep acc c.left) b.left =
        (rest.map Bounds.left).foldl minStep b.left := by
      rw [List.foldl_map]
    rw [hmap]
    apply foldl_minStep_eq
    · exact hall b (List.mem_cons_self _ _)
    · intro v hv
      rcases List.mem_map.mp hv with ⟨c, hc, rfl⟩
      exact hall c (List.mem_cons_of_mem _ hc)
    · rcases hatt with ⟨c, hc, he⟩
      rcases List.mem_cons.mp hc with h | h
      · subst h
        exact Or.inl he
      · exact Or.inr ⟨c.left, List.mem_map_of_mem Bounds.left h, he⟩

theorem minTopOf_eq_a (l : List Bounds) (a : ℚ)
    (hall : ∀ b ∈ l, a ≤ b.top) (hatt : ∃ b ∈ l, b.top = a) :
    minTopOf l = a := by
  match l with
  | [] =>
    rcases hatt with ⟨b, hb, _⟩
    simp at hb
  | b :: rest =>
    show rest.foldl (fun acc c => minStep acc c.top) b.top = a
    have hmap : rest.foldl (fun acc c => minStep acc c.top) b.top =
        (rest.map Bounds.top).foldl minStep b.top := by
      rw [List.foldl_map]
    rw [hmap]
    apply foldl_minStep_eq
    · exact hall b (List.mem_cons_self _ _)
    · intro v hv
      rcases List.mem_map.mp hv with ⟨c, hc, rfl⟩
      exact hall c (List.mem_cons_of_mem _ hc)
    · rcases hatt with ⟨c, hc, he⟩
      rcases List.mem_cons.mp hc with h | h
      · subst h
        exact Or.inl he
      · exact Or.inr ⟨c.top, List.mem_map_of_mem Bounds.top h, he⟩

theorem foldl_maxStep_attained (l : List ℚ) (hne : l ≠ [])
    (hnn : ∀ v ∈ l, 0 ≤ v) : ∃ v ∈ l, l.foldl maxStep 0 = v := by
  rcases foldl_maxStep_cases l 0 with h | hx
  · match l, hne with
    | v :: rest, _ =>
      refine ⟨v, List.mem_cons_self _ _, ?_⟩
      have h1 : v ≤ (v :: rest).foldl maxStep 0 :=
        foldl_maxStep_ge_mem _ 0 v (List.mem_cons_self _ _)
      have h2 : 0 ≤ v := hnn v (List.mem_cons_self _ _)
      rw [h] at h1 ⊢
      linarith
  · exact hx

theorem calculatePositions_anchored (nb : List Bounds) (cfg : LayoutConfig)
    (sx sy : ℚ) (hne : nb ≠ []) (hgap : 0 ≤ cfg.gap)
    (hwf : ∀ b ∈ nb, 0 ≤ getBoundsWidth b ∧ 0 ≤ getBoundsHeight b) :
    (∀ p ∈ calculatePositions nb cfg (calculateContentSize nb cfg) sx sy,
      sx ≤ p.x ∧ sy ≤ p.y) ∧
    (∃ p ∈ calculatePositions nb cfg (calculateContentSize nb cfg) sx sy,
      p.x = sx) ∧
    (∃ p ∈ calculatePositions nb cfg (calculateContentSize nb cfg) sx sy,
      p.y = sy) := by
  by_cases hdh : cfg.direction = some "horizontal"
  · have havail := calculateContentSize_horizontal nb cfg hne hdh
    have hw : (calculateContentSize nb cfg).width =
        nb.foldl (fun acc b => acc + getBoundsWidth b) 0 +
          cfg.gap * ((nb.length - 1 : ℕ) : ℚ) := by
      rw [havail]
    have hH : (calculateContentSize nb cfg).height =
        (nb.map getBoundsHeight).foldl maxStep 0 := by
      rw [havail]
      show nb.foldl (fun acc b => maxStep acc (getBoundsHeight b)) 0 = _
      rw [List.foldl_map]
    rw [calculatePositions_eq_loop_H nb cfg (calculateContentSize nb cfg)
      sx sy hne hdh hw]
    refine ⟨?_, ?_, ?_⟩
    · intro p hp
      constructor
      · exact posLoopH_x_lb cfg _ sx sy cfg.gap hdh hgap nb sx sy
          (fun b hb => (hwf b hb).1) p hp
      · rcases posLoopH_y_char cfg _ sx sy cfg.gap hdh nb sx sy p hp with
          ⟨b, hb, he⟩
        have hle : getBoundsHeight b ≤ (calculateContentSize nb cfg).height := by
          rw [hH]
          exact foldl_maxStep_ge_mem _ 0 _
            (List.mem_map_of_mem getBoundsHeight hb)
        have := cross_nonneg (getBoundsHeight b)
          (calculateContentSize nb cfg).height cfg.items hle
        rw [he]
        linarith
    · match nb, hne with
      | b0 :: rest, _ =>
        exact posLoopH_head_x cfg _ sx sy cfg.gap b0 rest sx sy hdh
    · have hmapne : nb.map getBoundsHeight ≠ [] := by
        intro hx
        exact hne (List.map_eq_nil.mp hx)
      rcases foldl_maxStep_attained (nb.map getBoundsHeight) hmapne
        (by
          intro v hv
          rcases List.mem_map.mp hv with ⟨b, hb, rfl⟩
          exact (hwf b hb).2) with ⟨v, hv, hfold⟩
      rcases List.mem_map.mp hv with ⟨b, hb, rfl⟩
      rcases posLoopH_y_mem cfg _ sx sy cfg.gap hdh nb sx sy b hb with
        ⟨p, hp, he⟩
      refine ⟨p, hp, ?_⟩
      rw [he]
      have hbh : getBoundsHeight b = (calculateContentSize nb cfg).height := by
        rw [hH, hfold]
      rw [hbh, cross_self]
      ring
  · by_cases hdv : cfg.direction = some "vertical"
    · have havail := calculateContentSize_vertical nb cfg hne hdv
      have hh : (calculateContentSize nb cfg).height =
          nb.foldl (fun acc b => acc + getBoundsHeight b) 0 +
            cfg.gap * ((nb.length - 1 : ℕ) : ℚ) := by
        rw [havail]
      have hW : (calculateContentSize nb cfg).width =
          (nb.map getBoundsWidth).foldl maxStep 0 := by
        rw [havail]
        show nb.foldl (fun acc b => maxStep acc (getBoundsWidth b)) 0 = _
        rw [List.foldl_map]
      rw [calculatePositions_eq_loop_V nb cfg (calculateContentSize nb cfg)
        sx sy hne hdv hh]
      refine ⟨?_, ?_, ?_⟩
      · intro p hp
        constructor
        · rcases posLoopV_x_char cfg _ sx sy cfg.gap hdv nb sx sy p hp with
            ⟨b, hb, he⟩
          have hle : getBoundsWidth b ≤ (calculateContentSize nb cfg).width := by
            rw [hW]
            exact foldl_maxStep_ge_mem _ 0 _
              (List.mem_map_of_mem getBoundsWidth hb)
          have := cross_nonneg (getBoundsWidth b)
            (calculateContentSize nb cfg).width cfg.items hle
          rw [he]
          linarith
        · exact posLoopV_y_lb cfg _ sx sy cfg.gap hdv hgap nb sx sy
            (fun b hb => (hwf b hb).2) p hp
      · have hmapne : nb.map getBoundsWidth ≠ [] := by
          intro hx
          exact hne (List.map_eq_nil.mp hx)
        rcases foldl_maxStep_attained (nb.map getBoundsWidth) hmapne
          (by
            intro v hv
            rcases List.mem_map.mp hv with ⟨b, hb, rfl⟩
            exact (hwf b hb).1) with ⟨v, hv, hfold⟩
        rcases List.mem_map.mp hv with ⟨b, hb, rfl⟩
        rcases posLoopV_x_mem cfg _ sx sy cfg.gap hdv nb sx sy b hb with
          ⟨p, hp, he⟩
        refine ⟨p, hp, ?_⟩
        rw [he]
        have hbw : getBoundsWidth b = (calculateContentSize nb cfg).width := by
          rw [hW, hfold]
        rw [hbw, cross_self]
        ring
      · match nb, hne with
        | b0 :: rest, _ =>
          exact posLoopV_head_y cfg _ sx sy cfg.gap b0 rest sx sy hdv
    · have hsz := calculateContentSize_no_direction nb cfg hne hdh hdv
      have hW : (calculateContentSize nb cfg).width =
          (nb.map getBoundsWidth).foldl maxStep 0 := by
        rw [hsz]
      have hH : (calculateContentSize nb cfg).height =
          (nb.map getBoundsHeight).foldl maxStep 0 := by
        rw [hsz]
      rw [calculatePositions_eq_loop_N nb cfg (calculateContentSize nb cfg)
        sx sy hne hdh hdv]
      have hwle : ∀ b ∈ nb,
          getBoundsWidth b ≤ (calculateContentSize nb cfg).width := by
        intro b hb
        rw [hW]
        exact foldl_maxStep_ge_mem _ 0 _
          (List.mem_map_of_mem getBoundsWidth hb)
      have hhle : ∀ b ∈ nb,
          getBoundsHeight b ≤ (calculateContentSize nb cfg).height := by
        intro b hb
        rw [hH]
        exact foldl_maxStep_ge_mem _ 0 _
          (List.mem_map_of_mem getBoundsHeight hb)
      refine ⟨?_, ?_, ?_⟩
      · intro p hp
        rcases posLoopN_char cfg _ sx sy cfg.gap hdh hdv nb sx sy p hp with
          ⟨b, hb, hex, hey⟩
        have h1 := cross_nonneg (getBoundsWidth b)
          (calculateContentSize nb cfg).width cfg.items (hwle b hb)
        have h2 := cross_nonneg (getBoundsHeight b)
          (calculateContentSize nb cfg).height cfg.items (hhle b hb)
        rw [hex, hey]
        constructor <;> linarith
      · have hmapne : nb.map getBoundsWidth ≠ [] := by
          intro hx
          exact hne (List.map_eq_nil.mp hx)
        rcases foldl_maxStep_attained (nb.map getBoundsWidth) hmapne
          (by
            intro v hv
            rcases List.mem_map.mp hv with ⟨b, hb, rfl⟩
            exact (hwf b hb).1) with ⟨v, hv, hfold⟩
        rcases List.mem_map.mp hv with ⟨b, hb, rfl⟩
        rcases posLoopN_mem cfg _ sx sy cfg.gap hdh hdv nb sx sy b hb with
          ⟨p, hp, hex, hey⟩
        refine ⟨p, hp, ?_⟩
        rw [hex]
        have hbw : getBoundsWidth b = (calculateContentSize nb cfg).width := by
          rw [hW, hfold]
        rw [hbw, cross_self]
        ring
      · have hmapne : nb.map getBoundsHeight ≠ [] := by
          intro hx
          exact hne (List.map_eq_nil.mp hx)
        rcases foldl_maxStep_attained (nb.map getBoundsHeight) hmapne
          (by
            intro v hv
            rcases List.mem_map.mp hv with ⟨b, hb, rfl⟩
            exact (hwf b hb).2) with ⟨v, hv, hfold⟩
        rcases List.mem_map.mp hv with ⟨b, hb, rfl⟩
        rcases posLoopN_mem cfg _ sx sy cfg.gap hdh hdv nb sx sy b hb with
          ⟨p, hp, hex, hey⟩
        refine ⟨p, hp, ?_⟩
        rw [hey]
        have hbh : getBoundsHeight b = (calculateContentSize nb cfg).height := by
          rw [hH, hfold]
        rw [hbh, cross_self]
        ring

theorem isEmpty_false_of_ne_nil {α : Type} {l : List α} (h : l ≠ []) :
    l.isEmpty = false := by
  cases l with
  | nil => exact absurd rfl h
  | cons a t => rfl

theorem zipWith_updN_map_bounds :
    ∀ (l : List Layer) (ps : List ComputedPosition),
      (List.zipWith (fun c p => { c with bounds := moveExact c.bounds p })
          l ps).map Layer.bounds =
        List.zipWith moveExact (l.map Layer.bounds) ps := by
  intro l
  induction l with
  | nil => intro ps; simp
  | cons c rest ih =>
    intro ps
    cases ps with
    | nil => simp
    | cons p pt =>
      simp only [List.zipWith, List.map]
      rw [ih pt]

theorem zipWith_updN_forall2 :
    ∀ (l : List Layer) (ps : List ComputedPosition),
      l.length = ps.length →
      List.Forall₂ (fun (c : Layer) (p : ComputedPosition) =>
          c.bounds.left = p.x ∧ c.bounds.top = p.y)
        (List.zipWith (fun c p => { c with bounds := moveExact c.bounds p })
          l ps) ps := by
  intro l
  induction l with
  | nil =>
    intro ps hlen
    cases ps with
    | nil => simp
    | cons q qt => simp at hlen
  | cons c rest ih =>
    intro ps hlen
    cases ps with
    | nil => simp at hlen
    | cons q qt =>
      simp only [List.zipWith]
      exact List.Forall₂.cons ⟨moveExact_left _ _, moveExact_top _ _⟩
        (ih qt (by simpa using hlen))

theorem applyLayoutWith_of_inert (mv : Bounds → ComputedPosition → Bounds)
    (ls : LayerSet) (cfg : LayoutConfig)
    (h : cfg.direction = none ∧ cfg.padding.top = 0 ∧ cfg.padding.right = 0 ∧
      cfg.padding.bottom = 0 ∧ cfg.padding.left = 0) :
    applyLayoutWith mv ls cfg = ls := by
  unfold applyLayoutWith
  rw [if_pos h]

theorem applyLayoutWith_of_empty (mv : Bounds → ComputedPosition → Bounds)
    (ls : LayerSet) (cfg : LayoutConfig)
    (h1 : ¬(cfg.direction = none ∧ cfg.padding.top = 0 ∧
      cfg.padding.right = 0 ∧ cfg.padding.bottom = 0 ∧ cfg.padding.left = 0))
    (h2 : (layoutParts ls cfg).normalLayers = [] ∧
      (layoutParts ls cfg).contentLayers = []) :
    applyLayoutWith mv ls cfg = ls := by
  unfold applyLayoutWith
  rw [if_neg h1, if_pos h2]

theorem applyLayoutWith_of_main (mv : Bounds → ComputedPosition → Bounds)
    (ls : LayerSet) (cfg : LayoutConfig)
    (h1 : ¬(cfg.direction = none ∧ cfg.padding.top = 0 ∧
      cfg.padding.right = 0 ∧ cfg.padding.bottom = 0 ∧ cfg.padding.left = 0))
    (h2 : ¬((layoutParts ls cfg).normalLayers = [] ∧
      (layoutParts ls cfg).contentLayers = [])) :
    applyLayoutWith mv ls cfg =
      { ls with
          children :=
            applyWalk mv
              { x := (layoutParts ls cfg).contentStartX - cfg.padding.left
                y := (layoutParts ls cfg).contentStartY - cfg.padding.top }
              (layoutParts ls cfg).containerSize ls.children
              (layoutParts ls cfg).positions } := by
  unfold applyLayoutWith
  rw [if_neg h1, if_neg h2]

theorem useFixedSize_stable (ls ls1 : LayerSet) (cfg : LayoutConfig)
    (CS : SizeWH) (T : ComputedPosition)
    (hfC : ls1.children.filter visibleContent =
      (ls.children.filter visibleContent).map
        (fun c =>
          { c with bounds := moveExact (if (parseLayoutName c.name).isContent
              then resizeLayerTo c.bounds CS else c.bounds) T })) :
    (layoutParts ls1 cfg).useFixedSize = (layoutParts ls cfg).useFixedSize := by
  rw [layoutParts_useFixedSize, layoutParts_useFixedSize, hfC]
  cases ls.children.filter visibleContent with
  | nil => rfl
  | cons c0 ct => rfl

theorem layoutParts_stable_auto (ls ls1 : LayerSet) (cfg : LayoutConfig)
    (hgap : 0 ≤ cfg.gap)
    (hwf : ∀ c ∈ ls.children,
      0 ≤ getBoundsWidth c.bounds ∧ 0 ≤ getBoundsHeight c.bounds)
    (hNne : ls.children.filter visibleNormal ≠ [])
    (hfN : ls1.children.filter visibleNormal =
      List.zipWith (fun c p => { c with bounds := moveExact c.bounds p })
        (ls.children.filter visibleNormal) (layoutParts ls cfg).positions)
    (hufs : (layoutParts ls cfg).useFixedSize = false)
    (hufs1 : (layoutParts ls1 cfg).useFixedSize = false) :
    (layoutParts ls1 cfg).contentStartX = (layoutParts ls cfg).contentStartX ∧
    (layoutParts ls1 cfg).contentStartY = (layoutParts ls cfg).contentStartY ∧
    (layoutParts ls1 cfg).containerSize = (layoutParts ls cfg).containerSize ∧
    (layoutParts ls1 cfg).positions = (layoutParts ls cfg).positions := by
  have hlenN : (ls.children.filter visibleNormal).length =
      (layoutParts ls cfg).positions.length := by
    rw [layoutParts_positions, calculatePositions_length, List.length_map]
  have hNB1 : (ls1.children.filter visibleNormal).map Layer.bounds =
      List.zipWith moveExact
        ((ls.children.filter visibleNormal).map Layer.bounds)
        (layoutParts ls cfg).positions := by
    rw [hfN, zipWith_updN_map_bounds]
  have hlenNB : ((ls.children.filter visibleNormal).map Layer.bounds).length =
      (layoutParts ls cfg).positions.length := by
    rw [List.length_map]
    exact hlenN
  have hszeq : ((ls1.children.filter visibleNormal).map Layer.bounds).map
        boundsSize =
      ((ls.children.filter visibleNormal).map Layer.bounds).map boundsSize := by
    rw [hNB1]
    exact zipWith_moveExact_sizes _ _ hlenNB
  have hCSz : calculateContentSize
        ((ls1.children.filter visibleNormal).map Layer.bounds) cfg =
      calculateContentSize
        ((ls.children.filter visibleNormal).map Layer.bounds) cfg :=
    calculateContentSize_congr _ _ cfg hszeq
  have hcont : (layoutParts ls1 cfg).containerSize =
      (layoutParts ls cfg).containerSize := by
    rw [layoutParts_containerSize, layoutParts_containerSize ls cfg, hufs,
      hufs1]
    simp only [Bool.false_eq_true, if_false]
    rw [layoutParts_contentSize, layoutParts_contentSize, hCSz]
  have hNBne : (ls.children.filter visibleNormal).map Layer.bounds ≠ [] :=
    fun h => hNne (List.map_eq_nil_iff.mp h)
  have hwfNB : ∀ b ∈ (ls.children.filter visibleNormal).map Layer.bounds,
      0 ≤ getBoundsWidth b ∧ 0 ≤ getBoundsHeight b := by
    intro b hbm
    rcases List.mem_map.mp hbm with ⟨c, hc, rfl⟩
    exact hwf c (List.mem_of_mem_filter hc)
  have havail : (layoutParts ls cfg).availableSpace =
      calculateContentSize
        ((ls.children.filter visibleNormal).map Layer.bounds) cfg := by
    rw [layoutParts_availableSpace, hufs]
    simp only [Bool.false_eq_true, if_false]
    exact layoutParts_contentSize ls cfg
  have hsxv : (layoutParts ls cfg).contentStartX =
      minLeftOf ((ls.children.filter visibleNormal).map Layer.bounds) := by
    rw [layoutParts_contentStartX, hufs, isEmpty_false_of_ne_nil hNBne]
    simp
  have hsyv : (layoutParts ls cfg).contentStartY =
      minTopOf ((ls.children.filter visibleNormal).map Layer.bounds) := by
    rw [layoutParts_contentStartY, hufs, isEmpty_false_of_ne_nil hNBne]
    simp
  have hPeq : (layoutParts ls cfg).positions =
      calculatePositions
        ((ls.children.filter visibleNormal).map Layer.bounds) cfg
        (calculateContentSize
          ((ls.children.filter visibleNormal).map Layer.bounds) cfg)
        (minLeftOf ((ls.children.filter visibleNormal).map Layer.bounds))
        (minTopOf ((ls.children.filter visibleNormal).map Layer.bounds)) := by
    rw [layoutParts_positions, havail, hsxv, hsyv]
  have hanch := calculatePositions_anchored
    ((ls.children.filter visibleNormal).map Layer.bounds) cfg
    (minLeftOf ((ls.children.filter visibleNormal).map Layer.bounds))
    (minTopOf ((ls.children.filter visibleNormal).map Layer.bounds))
    hNBne hgap hwfNB
  rw [← hPeq] at hanch
  obtain ⟨hall, ⟨px, hpxm, hpxe⟩, ⟨py, hpym, hpye⟩⟩ := hanch
  have hfN1ne : (ls1.children.filter visibleNormal).map Layer.bounds ≠ [] := by
    rw [hNB1]
    intro h
    have hlen0 := congrArg List.length h
    rw [List.length_zipWith, ← hlenNB, min_self, List.length_map,
      List.length_nil] at hlen0
    exact hNne (List.length_eq_zero.mp hlen0)
  have hsx1 : (layoutParts ls1 cfg).contentStartX =
      minLeftOf ((ls.children.filter visibleNormal).map Layer.bounds) := by
    rw [layoutParts_contentStartX, hufs1, isEmpty_false_of_ne_nil hfN1ne]
    show minLeftOf ((ls1.children.filter visibleNormal).map Layer.bounds) = _
    apply minLeftOf_eq_a
    · intro b hbm
      rw [hNB1] at hbm
      rcases zipWith_moveExact_mem _ _ b hbm with ⟨p, hpm, hbl, _⟩
      rw [hbl]
      exact (hall p hpm).1
    · rw [hNB1]
      rcases zipWith_moveExact_mem_rev _ _ px hlenNB hpxm with
        ⟨b2, hb2, hbl, _⟩
      exact ⟨b2, hb2, by rw [hbl, hpxe]⟩
  have hsy1 : (layoutParts ls1 cfg).contentStartY =
      minTopOf ((ls.children.filter visibleNormal).map Layer.bounds) := by
    rw [layoutParts_contentStartY, hufs1, isEmpty_false_of_ne_nil hfN1ne]
    show minTopOf ((ls1.children.filter visibleNormal).map Layer.bounds) = _
    apply minTopOf_eq_a
    · intro b hbm
      rw [hNB1] at hbm
      rcases zipWith_moveExact_mem _ _ b hbm with ⟨p, hpm, _, hbt⟩
      rw [hbt]
      exact (hall p hpm).2
    · rw [hNB1]
      rcases zipWith_moveExact_mem_rev _ _ py hlenNB hpym with
        ⟨b2, hb2, _, hbt⟩
      exact ⟨b2, hb2, by rw [hbt, hpye]⟩
  have havail1 : (layoutParts ls1 cfg).availableSpace =
      (layoutParts ls cfg).availableSpace := by
    rw [layoutParts_availableSpace, hufs1]
    simp only [Bool.false_eq_true, if_false]
    rw [layoutParts_contentSize, hCSz, havail]
  have hP1 : (layoutParts ls1 cfg).positions =
      (layoutParts ls cfg).positions := by
    rw [layoutParts_positions ls1 cfg, havail1, havail, hsx1, hsy1, hPeq]
    exact calculatePositions_congr _ _ cfg _ _ _ hszeq
  exact ⟨by rw [hsx1, hsxv], by rw [hsy1, hsyv], hcont, hP1⟩

theorem layoutParts_stable_fixed (ls ls1 : LayerSet) (cfg : LayoutConfig)
    (hfN : ls1.children.filter visibleNormal =
      List.zipWith (fun c p => { c with bounds := moveExact c.bounds p })
        (ls.children.filter visibleNormal) (layoutParts ls cfg).positions)
    (hfC : ls1.children.filter visibleContent =
      (ls.children.filter visibleContent).map
        (fun c =>
          { c with
              bounds :=
                moveExact
                  (if (parseLayoutName c.name).isContent then
                    resizeLayerTo c.bounds (layoutParts ls cfg).containerSize
                  else c.bounds)
                  { x := (layoutParts ls cfg).contentStartX - cfg.padding.left
                    y := (layoutParts ls cfg).contentStartY -
                      cfg.padding.top } }))
    (hufs : (layoutParts ls cfg).useFixedSize = true) :
    (layoutParts ls1 cfg).contentStartX = (layoutParts ls cfg).contentStartX ∧
    (layoutParts ls1 cfg).contentStartY = (layoutParts ls cfg).contentStartY ∧
    (layoutParts ls1 cfg).containerSize = (layoutParts ls cfg).containerSize ∧
    (layoutParts ls1 cfg).positions = (layoutParts ls cfg).positions := by
  have hlenN : (ls.children.filter visibleNormal).length =
      (layoutParts ls cfg).positions.length := by
    rw [layoutParts_positions, calculatePositions_length, List.length_map]
  have hNB1 : (ls1.children.filter visibleNormal).map Layer.bounds =
      List.zipWith moveExact
        ((ls.children.filter visibleNormal).map Layer.bounds)
        (layoutParts ls cfg).positions := by
    rw [hfN, zipWith_updN_map_bounds]
  have hlenNB : ((ls.children.filter visibleNormal).map Layer.bounds).length =
      (layoutParts ls cfg).positions.length := by
    rw [List.length_map]
    exact hlenN
  have hszeq : ((ls1.children.filter visibleNormal).map Layer.bounds).map
        boundsSize =
      ((ls.children.filter visibleNormal).map Layer.bounds).map boundsSize := by
    rw [hNB1]
    exact zipWith_moveExact_sizes _ _ hlenNB
  rcases hCsh : ls.children.filter visibleContent with _ | ⟨c0, ct⟩
  · rw [layoutParts_useFixedSize, hCsh] at hufs
    simp at hufs
  · have hrc : (parseLayoutName c0.name).resizeContent = false := by
      have h2 := hufs
      rw [layoutParts_useFixedSize, hCsh] at h2
      simpa using h2
    have hCSe : (layoutParts ls cfg).containerSize =
        { width := getBoundsWidth c0.bounds
          height := getBoundsHeight c0.bounds } := by
      rw [layoutParts_containerSize, hufs, hCsh]
      rfl
    have hsx : (layoutParts ls cfg).contentStartX =
        c0.bounds.left + cfg.padding.left := by
      rw [layoutParts_contentStartX, hufs, hCsh]
      simp
    have hsy : (layoutParts ls cfg).contentStartY =
        c0.bounds.top + cfg.padding.top := by
      rw [layoutParts_contentStartY, hufs, hCsh]
      simp
    have hT : ({ x := (layoutParts ls cfg).contentStartX - cfg.padding.left
                 y := (layoutParts ls cfg).contentStartY - cfg.padding.top } :
        ComputedPosition) =
        { x := c0.bounds.left, y := c0.bounds.top } := by
      rw [hsx, hsy]
      simp only [ComputedPosition.mk.injEq]
      constructor <;> ring
    have hb1 : moveExact
        (if (parseLayoutName c0.name).isContent then
          resizeLayerTo c0.bounds (layoutParts ls cfg).containerSize
        else c0.bounds)
        { x := (layoutParts ls cfg).contentStartX - cfg.padding.left
          y := (layoutParts ls cfg).contentStartY - cfg.padding.top } =
        c0.bounds := by
      rw [hT]
      by_cases hic : (parseLayoutName c0.name).isContent
      · rw [if_pos hic, hCSe, resizeLayerTo_self c0.bounds]
        exact moveExact_self c0.bounds
      · rw [if_neg hic]
        exact moveExact_self c0.bounds
    have hc0fix : ({ c0 with
        bounds :=
          moveExact
            (if (parseLayoutName c0.name).isContent then
              resizeLayerTo c0.bounds (layoutParts ls cfg).containerSize
            else c0.bounds)
            { x := (layoutParts ls cfg).contentStartX - cfg.padding.left
              y := (layoutParts ls cfg).contentStartY - cfg.padding.top } } :
        Layer) = c0 := by
      rw [hb1]
    have hfC1 : ls1.children.filter visibleContent = c0 ::
        ct.map (fun c =>
          { c with
              bounds :=
                moveExact
                  (if (parseLayoutName c.name).isContent then
                    resizeLayerTo c.bounds (layoutParts ls cfg).containerSize
                  else c.bounds)
                  { x := (layoutParts ls cfg).contentStartX - cfg.padding.left
                    y := (layoutParts ls cfg).contentStartY -
                      cfg.padding.top } }) := by
      rw [hfC, hCsh, List.map_cons, hc0fix]
    have hufs1 : (layoutParts ls1 cfg).useFixedSize = true := by
      rw [layoutParts_useFixedSize, hfC1]
      simp [hrc]
    have hCS1 : (layoutParts ls1 cfg).containerSize =
        { width := getBoundsWidth c0.bounds
          height := getBoundsHeight c0.bounds } := by
      rw [layoutParts_containerSize, hufs1, hfC1]
      rfl
    have hsx1 : (layoutParts ls1 cfg).contentStartX =
        c0.bounds.left + cfg.padding.left := by
      rw [layoutParts_contentStartX, hufs1, hfC1]
      simp
    have hsy1 : (layoutParts ls1 cfg).contentStartY =
        c0.bounds.top + cfg.padding.top := by
      rw [layoutParts_contentStartY, hufs1, hfC1]
      simp
    have havail : (layoutParts ls cfg).availableSpace =
        { width :=
            getBoundsWidth c0.bounds - cfg.padding.left - cfg.padding.right
          height :=
            getBoundsHeight c0.bounds - cfg.padding.top - cfg.padding.bottom } := by
      rw [layoutParts_availableSpace, hufs, hCsh]
      rfl
    have havail1 : (layoutParts ls1 cfg).availableSpace =
        { width :=
            getBoundsWidth c0.bounds - cfg.padding.left - cfg.padding.right
          height :=
            getBoundsHeight c0.bounds - cfg.padding.top - cfg.padding.bottom } := by
      rw [layoutParts_availableSpace, hufs1, hfC1]
      rfl
    have hP1 : (layoutParts ls1 cfg).positions =
        (layoutParts ls cfg).positions := by
      rw [layoutParts_positions ls1 cfg, layoutParts_positions ls cfg,
        havail1, havail, hsx1, hsx, hsy1, hsy]
      exact calculatePositions_congr _ _ cfg _ _ _ hszeq
    exact ⟨hsx1.trans hsx.symm, hsy1.trans hsy.symm, hCS1.trans hCSe.symm, hP1⟩

/-- C1 (amended): with the epsilon suppression removed from the first pass,
the pass is idempotent.  Let the first pass apply every delta exactly
(`applyLayoutExact`).  The host then re-derives the container's rectangle
from its children, so the second pass runs on a record `ls1` holding the
same children but an arbitrary host-reported `bounds`; the theorem
quantifies over that rectangle.  Running the source pass
(`applyLayoutPass`, with its 1e-3 suppression) on any such `ls1` moves no
child: the suppression, not the layout computation, is what makes repeated
passes drift.  Hypotheses: a non-negative gap, children with non-negative
widths and heights, no adjustment layers, and at least one visible flow
child — the last ruling out the `contentStartX = groupBounds.left` fallback
of `calculateLayout` (`layout.ts:131`), the one anchor read from the
container's own live rectangle, through which a flow-childless container
with padding genuinely drifts every pass. -/
theorem C1_exact_pass_idempotent (ls ls1 : LayerSet) (cfg : LayoutConfig)
    (hgap : 0 ≤ cfg.gap)
    (hwf : ∀ c ∈ ls.children,
      0 ≤ getBoundsWidth c.bounds ∧ 0 ≤ getBoundsHeight c.bounds)
    (hadj : ∀ c ∈ ls.children, isAdjustmentLayer c = false)
    (hflow : ∃ c ∈ ls.children, visibleNormal c = true)
    (hch : ls1.children = (applyLayoutExact ls cfg).children) :
    (applyLayoutPass ls1 cfg).children = ls1.children := by
  have hNne : ls.children.filter visibleNormal ≠ [] := by
    rcases hflow with ⟨c, hcm, hvn⟩
    intro hnil
    have hmem : c ∈ ls.children.filter visibleNormal :=
      List.mem_filter.mpr ⟨hcm, hvn⟩
    rw [hnil] at hmem
    simp at hmem
  show (applyLayoutWith moveWithEpsilon ls1 cfg).children = ls1.children
  by_cases hg1 : cfg.direction = none ∧ cfg.padding.top = 0 ∧
      cfg.padding.right = 0 ∧ cfg.padding.bottom = 0 ∧ cfg.padding.left = 0
  · rw [applyLayoutWith_of_inert moveWithEpsilon ls1 cfg hg1]
  · have hg2 : ¬((layoutParts ls cfg).normalLayers = [] ∧
        (layoutParts ls cfg).contentLayers = []) := by
      intro h
      apply hNne
      have h1 := h.1
      rw [layoutParts_normalLayers] at h1
      exact h1
    set T : ComputedPosition :=
      { x := (layoutParts ls cfg).contentStartX - cfg.padding.left
        y := (layoutParts ls cfg).contentStartY - cfg.padding.top } with hT
    set CS : SizeWH := (layoutParts ls cfg).containerSize with hCS
    set P : List ComputedPosition := (layoutParts ls cfg).positions with hP
    have hch' : ls1.children = applyWalk moveExact T CS ls.children P := by
      rw [hch]
      show (applyLayoutWith moveExact ls cfg).children = _
      rw [applyLayoutWith_of_main moveExact ls cfg hg1 hg2]
    have hlenN : (ls.children.filter visibleNormal).length = P.length := by
      rw [hP, layoutParts_positions, calculatePositions_length,
        List.length_map]
    have hfN : ls1.children.filter visibleNormal =
        List.zipWith (fun c p => { c with bounds := moveExact c.bounds p })
          (ls.children.filter visibleNormal) P := by
      rw [hch']
      exact applyWalk_filter_normal moveExact T CS ls.children P hadj hlenN
    have hfC : ls1.children.filter visibleContent =
        (ls.children.filter visibleContent).map
          (fun c =>
            { c with bounds := moveExact (if (parseLayoutName c.name).isContent
                then resizeLayerTo c.bounds CS else c.bounds) T }) := by
      rw [hch']
      exact applyWalk_filter_content moveExact T CS ls.children P hadj
    have hadj1 : ∀ c ∈ ls1.children, isAdjustmentLayer c = false := by
      rw [hch']
      exact applyWalk_adjFree moveExact T CS ls.children P hadj
    have hg2' : ¬((layoutParts ls1 cfg).normalLayers = [] ∧
        (layoutParts ls1 cfg).contentLayers = []) := by
      intro h
      apply hNne
      have h1 := h.1
      rw [layoutParts_normalLayers, hfN] at h1
      have hl0 := congrArg List.length h1
      rw [List.length_zipWith, ← hlenN, min_self, List.length_nil] at hl0
      exact List.length_eq_zero.mp hl0
    rw [applyLayoutWith_of_main moveWithEpsilon ls1 cfg hg1 hg2']
    show applyWalk moveWithEpsilon
        { x := (layoutParts ls1 cfg).contentStartX - cfg.padding.left
          y := (layoutParts ls1 cfg).contentStartY - cfg.padding.top }
        (layoutParts ls1 cfg).containerSize ls1.children
        (layoutParts ls1 cfg).positions = ls1.children
    have hstab : (layoutParts ls1 cfg).contentStartX =
          (layoutParts ls cfg).contentStartX ∧
        (layoutParts ls1 cfg).contentStartY =
          (layoutParts ls cfg).contentStartY ∧
        (layoutParts ls1 cfg).containerSize =
          (layoutParts ls cfg).containerSize ∧
        (layoutParts ls1 cfg).positions = (layoutParts ls cfg).positions := by
      cases hufs : (layoutParts ls cfg).useFixedSize with
      | false =>
        have hufs1 : (layoutParts ls1 cfg).useFixedSize = false := by
          rw [useFixedSize_stable ls ls1 cfg CS T hfC]
          exact hufs
        exact layoutParts_stable_auto ls ls1 cfg hgap hwf hNne
          (by rw [hfN, hP]) hufs hufs1
      | true =>
        exact layoutParts_stable_fixed ls ls1 cfg (by rw [hfN, hP])
          (by rw [hfC, hCS, hT]) hufs
    obtain ⟨hsx1, hsy1, hCS1, hP1⟩ := hstab
    have hcc : ∀ c ∈ ls1.children, visibleContent c = true →
        moveWithEpsilon (if (parseLayoutName c.name).isContent then
          resizeLayerTo c.bounds CS else c.bounds) T = c.bounds := by
      intro c hcm hvc
      have hcf : c ∈ ls1.children.filter visibleContent :=
        List.mem_filter.mpr ⟨hcm, hvc⟩
      rw [hfC] at hcf
      rcases List.mem_map.mp hcf with ⟨c0, hc0, rfl⟩
      show moveWithEpsilon (if (parseLayoutName c0.name).isContent then
          resizeLayerTo (moveExact (if (parseLayoutName c0.name).isContent then
            resizeLayerTo c0.bounds CS else c0.bounds) T) CS
        else moveExact (if (parseLayoutName c0.name).isContent then
          resizeLayerTo c0.bounds CS else c0.bounds) T) T =
        moveExact (if (parseLayoutName c0.name).isContent then
          resizeLayerTo c0.bounds CS else c0.bounds) T
      by_cases hic : (parseLayoutName c0.name).isContent
      · simp only [hic, reduceIte]
        exact content_fix c0.bounds CS T
      · simp only [Bool.not_eq_true] at hic
        simp only [hic, reduceIte]
        exact moveWithEpsilon_self _ _ (moveExact_left _ _) (moveExact_top _ _)
    have hf2 : List.Forall₂ (fun (c : Layer) (p : ComputedPosition) =>
        c.bounds.left = p.x ∧ c.bounds.top = p.y)
        (ls1.children.filter visibleNormal) P := by
      rw [hfN]
      exact zipWith_updN_forall2 _ P hlenN
    have hTT : ComputedPosition.mk
        ((layoutParts ls1 cfg).contentStartX - cfg.padding.left)
        ((layoutParts ls1 cfg).contentStartY - cfg.padding.top) = T := by
      rw [hsx1, hsy1, hT]
    rw [hTT, hCS1, ← hCS, hP1, ← hP]
    exact applyWalk_id T CS ls1.children P hadj1 hf2 hcc

/-- C1 witness: the amended idempotence theorem applied to the concrete
three-child row container of the counterexample; the second pass runs on a
record carrying the same children under a fresh, arbitrary host-derived
rectangle, and the hypotheses (gap 0, non-degenerate children, no
adjustment layers, a visible flow child) all hold. -/
theorem C1_exact_pass_idempotent_witness :
    (0 ≤ c1Config.gap) ∧
    (applyLayoutPass
        { bounds := { left := 3, top := 4, right := 5, bottom := 6 }
          children := (applyLayoutExact c1Container c1Config).children }
        c1Config).children =
      (applyLayoutExact c1Container c1Config).children := by
  constructor
  · norm_num [c1Config, createDefaultConfig]
  · apply C1_exact_pass_idempotent c1Container
      { bounds := { left := 3, top := 4, right := 5, bottom := 6 }
        children := (applyLayoutExact c1Container c1Config).children }
      c1Config
    · norm_num [c1Config, createDefaultConfig]
    · intro c hc
      simp only [c1Container, List.mem_cons, List.not_mem_nil, or_false] at hc
      rcases hc with rfl | rfl | rfl <;>
        exact ⟨by norm_num [getBoundsWidth], by norm_num [getBoundsHeight]⟩
    · intro c hc
      simp only [c1Container, List.mem_cons, List.not_mem_nil, or_false] at hc
      rcases hc with rfl | rfl | rfl <;> decide
    · refine ⟨_, List.mem_cons_self _ _, ?_⟩
      decide
    · rfl

end Loom
